import Mathlib

/-!
Verification of the pairing / session / mailbox core of the origin-bridge
repository (`src/logic/linker_service.py`) against its natural-language
specification.

The Python module is shallowly embedded: the four SQLAlchemy tables become
lists inside an explicit `DB` state, every service function becomes a pure
Lean function from a `DB` (plus its request arguments) to an updated `DB`
and a return value, and Python exceptions become `Except` errors.  JSON
column values are modelled by an untyped `Json` inductive.  Sources of
nondeterminism that the code draws from its environment (uuid1 tokens,
`random.choices` character draws, the current time `utcnow()`) are passed
to the operations as explicit parameters.  The two genuinely external
collaborators used inside the modelled functions - werkzeug's user-agent
parser and the transaction dissector - are passed as opaque function
parameters, as the specification treats them as external interfaces.
-/

namespace OriginBridge

/-- Untyped JSON values, modelling the JSON columns and dict payloads of
the Python code (`pending_call`, message `data`, `app_info`, ...). -/
inductive Json : Type where
  | null : Json
  | bool : Bool → Json
  | num : Int → Json
  | str : String → Json
  | arr : List Json → Json
  | obj : List (String × Json) → Json

/-- Python truthiness of a JSON value (`if app_info:`, `if pending_call:`):
`None`, `False`, `0`, `""` and empty containers are falsy. -/
def Json.truthy : Json → Bool
  | .null => false
  | .bool b => b
  | .num n => decide (n ≠ 0)
  | .str s => !s.isEmpty
  | .arr l => !l.isEmpty
  | .obj l => !l.isEmpty

/-- Dict key lookup, `d.get(k)` / `k in d`: `none` when the key is absent
or the value is not a dict. -/
def Json.lookup : Json → String → Option Json
  | .obj l, k => (l.find? (fun p => p.1 == k)).map (fun p => p.2)
  | _, _ => none

/-- Dict key lookup with `null` default (`d[k]` on payloads that the code
itself built with the key present). -/
def Json.lookupD (j : Json) (k : String) : Json :=
  (j.lookup k).getD .null

/-- Dict update `d[k] = v`: replaces the value of an existing key in place,
otherwise appends the key (Python dict insertion order); identity on
non-dict values (where Python would raise). -/
def Json.insert : Json → String → Json → Json
  | .obj l, k, v =>
    if l.any (fun p => p.1 == k) then
      .obj (l.map (fun p => if p.1 == k then (p.1, v) else p))
    else
      .obj (l ++ [(k, v)])
  | j, _, _ => j

/-- `LinkedTokens` rows: one pairing record per client token. -/
structure LinkedTokens where
  id : Nat
  client_token : String
  code : Option String
  code_expires : Option Nat
  linked : Bool
  wallet_token : Option String
  current_rpc : Json
  current_accounts : Json
  pending_call : Option Json
  app_info : Json
  linked_at : Option Nat
  current_return_url : Option String

/-- `LinkedSession` rows: browser-tab sessions, many per pairing record. -/
structure LinkedSession where
  id : Nat
  session_token : String
  linked_id : Nat

/-- The `MessageTypes` enum. -/
inductive MessageTypes : Type where
  | NETWORK : MessageTypes
  | ACCOUNTS : MessageTypes
  | CALL : MessageTypes
  | CALL_RESPONSE : MessageTypes
deriving DecidableEq

/-- `MessageTypes.name` (the Python enum member name). -/
def MessageTypes.name : MessageTypes → String
  | .NETWORK => "NETWORK"
  | .ACCOUNTS => "ACCOUNTS"
  | .CALL => "CALL"
  | .CALL_RESPONSE => "CALL_RESPONSE"

/-- `LinkedMessage` rows: the client-side mailbox, one log entry per
session-addressed message. -/
structure LinkedMessage where
  id : Nat
  session_id : Nat
  type : MessageTypes
  data : Json

/-- `WalletMessage` rows: the wallet-side mailbox.  `current_accounts` is
the accounts snapshot supplied by the browser at enqueue time (a list of
account address strings). -/
structure WalletMessage where
  id : Nat
  wallet_token : Option String
  current_accounts : List String
  type : MessageTypes
  data : Json

/-- The persistent state: the four tables plus the autoincrement counters
that hand out fresh primary keys. -/
structure DB where
  tokens : List LinkedTokens
  sessions : List LinkedSession
  client_messages : List LinkedMessage
  wallet_messages : List WalletMessage
  next_token_id : Nat
  next_session_id : Nat
  next_client_msg_id : Nat
  next_wallet_msg_id : Nat

/-- The empty database; autoincrement ids start at 1. -/
def emptyDB : DB :=
  { tokens := []
    sessions := []
    client_messages := []
    wallet_messages := []
    next_token_id := 1
    next_session_id := 1
    next_client_msg_id := 1
    next_wallet_msg_id := 1 }

/-- `column > utcnow()` on a nullable timestamp column: SQL three-valued
logic makes a NULL expiry fail the comparison. -/
def expiresAfter (e : Option Nat) (now : Nat) : Bool :=
  match e with
  | some t => decide (now < t)
  | none => false

/-- Commit a pairing record: append it as a new row (bumping the id
counter) or update the existing row with its primary key in place. -/
def commitToken (db : DB) (isNew : Bool) (o : LinkedTokens) : DB :=
  if isNew then
    { db with tokens := db.tokens ++ [o], next_token_id := db.next_token_id + 1 }
  else
    { db with tokens := db.tokens.map (fun t => if t.id == o.id then o else t) }

/-- `CODE_EXPIRATION_TIME_MINUTES = 60`. -/
def CODE_EXPIRATION_TIME_MINUTES : Nat := 60

/-- `datetime.timedelta(minutes=m)` against a clock measured in seconds. -/
def minutesToSeconds (m : Nat) : Nat := m * 60

/-- `util.time_.to_js_timestamp`: seconds to a JavaScript millisecond
timestamp. -/
def to_js_timestamp (t : Nat) : Nat := t * 1000

/-!
### SHA3-224

`_hash_id` calls `hashlib.sha3_224`; the Keccak construction is embedded
here in full (FIPS 202, capacity 448, rate 144 bytes, 28-byte digest).
Lanes are 64-bit words represented as `Nat` reduced mod `2 ^ 64`; the
25-lane state is a function from the lane index `x + 5 * y`.
-/

/-- The Keccak state: 25 lanes, lane `(x, y)` at index `x + 5 * y`. -/
def KState : Type := List Nat

/-- Read one lane. -/
def lane (A : KState) (i : Nat) : Nat := A.getD i 0

/-- Left-rotation of a 64-bit lane. -/
def rot64 (x n : Nat) : Nat :=
  ((x <<< n) ||| (x >>> (64 - n))) % (2 ^ 64)

/-- Keccak θ step. -/
def theta (A : KState) : KState :=
  let C := (List.range 5).map
    (fun x => lane A x ^^^ lane A (x + 5) ^^^ lane A (x + 10) ^^^ lane A (x + 15) ^^^ lane A (x + 20))
  let D := (List.range 5).map
    (fun x => C.getD ((x + 4) % 5) 0 ^^^ rot64 (C.getD ((x + 1) % 5) 0) 1)
  (List.range 25).map (fun i => lane A i ^^^ D.getD (i % 5) 0)

/-- The ρ rotation offsets, generated by the standard traversal of FIPS
202 Algorithm 2: starting from lane (1, 0), step `t` assigns offset
`(t+1)(t+2)/2 mod 64` and moves to `(y, (2x+3y) mod 5)`.  The result pairs
each lane index `x + 5 * y` with its offset; lane 0 keeps offset 0. -/
def rhoOffsetPairsAux : Nat → Nat → Nat → Nat → List (Nat × Nat)
  | 0, _, _, _ => []
  | n + 1, x, y, t =>
    (x + 5 * y, (t + 1) * (t + 2) / 2 % 64) ::
      rhoOffsetPairsAux n y ((2 * x + 3 * y) % 5) (t + 1)

/-- All 24 generated (lane, offset) pairs. -/
def rhoOffsetPairs : List (Nat × Nat) := rhoOffsetPairsAux 24 1 0 0

/-- Offset of one lane (0 for the untouched lane 0). -/
def rhoOff (i : Nat) : Nat :=
  ((rhoOffsetPairs.find? (fun p => p.1 == i)).map (fun p => p.2)).getD 0

/-- Combined ρ and π steps: lane `(x, y)` lands rotated at
`(y, (2x + 3y) mod 5)`. -/
def rhoPi (A : KState) : KState :=
  (List.range 25).foldl
    (fun B i =>
      let x := i % 5
      let y := i / 5
      B.set (y + 5 * ((2 * x + 3 * y) % 5)) (rot64 (lane A i) (rhoOff i)))
    (List.replicate 25 0)

/-- Keccak χ step (`NOT` of a 64-bit lane is XOR with the all-ones mask). -/
def chi (B : KState) : KState :=
  (List.range 25).map (fun i =>
    let x := i % 5
    let y := i / 5
    lane B i ^^^ ((lane B ((x + 1) % 5 + 5 * y) ^^^ (2 ^ 64 - 1)) &&& lane B ((x + 2) % 5 + 5 * y)))

/-- Keccak ι step. -/
def iotaStep (rc : Nat) (A : KState) : KState :=
  A.set 0 (lane A 0 ^^^ rc)

/-- One step of the degree-8 LFSR of FIPS 202 Algorithm 5
(x^8 + x^6 + x^5 + x^4 + 1, byte-packed). -/
def rcStep (r : Nat) : Nat :=
  ((r <<< 1) ^^^ ((r >>> 7) * 0x71)) % 256

/-- Bit `rc(t)`: the low bit of the LFSR state after `t` steps from 1. -/
def rcBit (t : Nat) : Nat :=
  (Nat.rec 1 (fun _ r => rcStep r) t : Nat) % 2

/-- The 24 round constants of Keccak-f[1600]: constant `i` has bit
`rc(7 i + j)` at position `2 ^ j - 1` for `j < 7`. -/
def keccakRC : List Nat :=
  (List.range 24).map (fun i =>
    (List.range 7).foldl (fun acc j => acc ||| (rcBit (7 * i + j) <<< (2 ^ j - 1))) 0)

/-- The Keccak-f[1600] permutation: 24 rounds of θ, ρ, π, χ, ι. -/
def keccakF (A : KState) : KState :=
  keccakRC.foldl (fun A rc => iotaStep rc (chi (rhoPi (theta A)))) A

/-- Rate of SHA3-224 in bytes. -/
def sha3_224_rate : Nat := 144

/-- FIPS 202 pad10*1 with the SHA-3 domain bits: append `0x06`, zeros, and
a final `0x80` (merged into `0x86` when one byte of padding remains). -/
def sha3_pad (msg : List Nat) : List Nat :=
  let q := sha3_224_rate - msg.length % sha3_224_rate
  if q == 1 then msg ++ [0x86]
  else msg ++ [0x06] ++ List.replicate (q - 2) 0 ++ [0x80]

/-- Split a padded message into rate-sized blocks. -/
def sha3_blocks : List Nat → List (List Nat)
  | [] => []
  | b :: rest =>
    ((b :: rest).take sha3_224_rate) :: sha3_blocks ((b :: rest).drop sha3_224_rate)
termination_by l => l.length
decreasing_by simp [sha3_224_rate]; omega

/-- Little-endian load of lane `i` from a rate-sized block. -/
def laneOfBytes (block : List Nat) (i : Nat) : Nat :=
  (List.range 8).foldl (fun acc k => acc ||| (block.getD (8 * i + k) 0 <<< (8 * k))) 0

/-- XOR one block into the first 18 lanes (144 bytes) of the state. -/
def absorbBlock (A : KState) (block : List Nat) : KState :=
  (List.range 25).map (fun i => if i < 18 then lane A i ^^^ laneOfBytes block i else lane A i)

/-- The SHA3-224 sponge: absorb all padded blocks, then squeeze the
28-byte digest from the initial lanes, little-endian. -/
def sha3_224_bytes (msg : List Nat) : List Nat :=
  let A := (sha3_blocks (sha3_pad msg)).foldl (fun A b => keccakF (absorbBlock A b))
    (List.replicate 25 0)
  (List.range 28).map (fun i => (lane A (i / 8) >>> (8 * (i % 8))) % 256)

/-- The digest as 56 hexadecimal digits (two per byte, high nibble first). -/
def sha3_224_hexDigits (msg : List Nat) : List (Fin 16) :=
  (sha3_224_bytes msg).flatMap
    (fun b => [⟨b / 16 % 16, Nat.mod_lt _ (by omega)⟩, ⟨b % 16, Nat.mod_lt _ (by omega)⟩])

/-- A run of consecutive ASCII characters. -/
def asciiRange (start len : Nat) : List Char :=
  (List.range len).map (fun i => Char.ofNat (start + i))

/-- The sixteen lowercase hex digit characters, `0`-`9` then `a`-`f`. -/
def HEX_CHARS : List Char := asciiRange 48 10 ++ asciiRange 97 6

/-- A hex digit as a character. -/
def hexChar (d : Fin 16) : Char := HEX_CHARS.getD d.val '0'

/-- `hashlib.sha3_224(...).hexdigest()`. -/
def sha3_224_hexdigest (msg : List Nat) : String :=
  String.mk ((sha3_224_hexDigits msg).map hexChar)

/-- UTF-8 bytes of a string (`.encode("utf-8")`). -/
def strBytes (s : String) : List Nat :=
  s.toUTF8.toList.map (fun b => b.toNat)

/-- `_hash_id`: SHA3-224 of the decimal id concatenated with the secret
key (`"%d%s" % (exposed_id, key)`), hex digest truncated to 16 chars. -/
def _hash_id (exposed_id : Nat) (key : String) : String :=
  (sha3_224_hexdigest (strBytes (toString exposed_id ++ key))).take 16

/-!
### String constants

Dict keys, exception messages and the code alphabet, named so that every
string literal sits on a definition of its own.
-/

def emptyString : String := ""

def kUserAgent : String := "user-agent"

def kSessionToken : String := "session_token"

def kMeta : String := "meta"

def kCall : String := "call"

def kCallId : String := "call_id"

def kResult : String := "result"

def kType : String := "type"

def kId : String := "id"

def kNetworkRpc : String := "network_rpc"

def kAccounts : String := "accounts"

def kReturnUrl : String := "return_url"

def kTxnObject : String := "txn_object"

/-- The exception message of `_generate_code` (verbatim from the source). -/
def errMaxRetries : String := "We hit max retries without finding a none repreated code!"

/-- Marker for a Python `AttributeError` raised by dereferencing `None`. -/
def errNoneAttribute : String := "AttributeError: NoneType"

/-- Marker for a Python `IndexError` raised by `accounts[0]` on an empty list. -/
def errIndexOut : String := "IndexError: list index out of range"

def errSessionGen : String := "Problem generating the session."

def errSessionMissing : String := "Session does not exist"

def errSessionNotLinked : String := "Session not linked"

def errWalletMismatch : String := "Wallet linked to a different session"

/-- `string.ascii_letters + string.digits`: the 62-character alphabet that
pairing codes are drawn from (lowercase, then uppercase, then digits). -/
def CODE_ALPHABET : List Char :=
  asciiRange 97 26 ++ asciiRange 65 26 ++ asciiRange 48 10

/-!
### Code issuance (`_generate_code`)

The ten random draws of `random.choices(alphabet, k=9)` are modelled by an
explicit stream `draw : Nat → Fin 62` of alphabet indices; attempt `i`
consumes indices `9 i` to `9 i + 8`.
-/

/-- The 9-character candidate code of attempt `attempt`. -/
def codeFromDraw (draw : Nat → Fin 62) (attempt : Nat) : String :=
  String.mk ((List.range 9).map (fun j => CODE_ALPHABET.getD (draw (9 * attempt + j)).val 'a'))

/-- `LinkedTokens.query.filter_by(code=code).filter(LinkedTokens.code_expires > utcnow()).count()`:
is some record currently holding this code, unexpired? -/
def activeCodeExists (db : DB) (now : Nat) (code : String) : Bool :=
  db.tokens.any (fun t => t.code == some code && expiresAfter t.code_expires now)

/-- The retry loop of `_generate_code`, starting at attempt `attempt`. -/
def genCodeAux (db : DB) (now : Nat) (draw : Nat → Fin 62) (attempt : Nat) :
    Except String String :=
  if h : attempt < 10 then
    let code := codeFromDraw draw attempt
    if activeCodeExists db now code then genCodeAux db now draw (attempt + 1)
    else .ok code
  else .error errMaxRetries
termination_by 10 - attempt

/-- `_generate_code`: up to ten attempts at a fresh 9-character code;
raises after ten collisions. -/
def _generate_code (db : DB) (now : Nat) (draw : Nat → Fin 62) : Except String String :=
  genCodeAux db now draw 0

/-!
### Lookups and small helpers
-/

/-- `LinkedTokens.query.filter_by(client_token=...).first()`. -/
def findByClientToken (db : DB) (ct : String) : Option LinkedTokens :=
  db.tokens.find? (fun t => t.client_token == ct)

/-- `LinkedTokens.query.filter_by(code=code).filter(LinkedTokens.code_expires > utcnow()).first()`. -/
def findByCode (db : DB) (code : String) (now : Nat) : Option LinkedTokens :=
  db.tokens.find? (fun t => t.code == some code && expiresAfter t.code_expires now)

/-- `LinkedSession.query.filter_by(session_token=..., linked_id=...).first()`. -/
def findSession (db : DB) (st : String) (lid : Nat) : Option LinkedSession :=
  db.sessions.find? (fun s => s.session_token == st && s.linked_id == lid)

/-- `_get_meta`: dissect the transaction object of `call[1]` when present
and truthy, else an empty dict.  `dissect` abstracts the external
`util.transaction_dissector.dissect_transaction`. -/
def _get_meta (dissect : Json → Json → Json) (rpc : Json) (call : Json) : Json :=
  match call with
  | .arr (_ :: b :: _) =>
    match b.lookup kTxnObject with
    | some t => if t.truthy then dissect rpc t else .obj []
    | none => .obj []
  | _ => .obj []

/-- `_to_usable_info`: parse the stored user agent when present.
`uaParse` abstracts werkzeug's `UserAgent` together with the
platform/browser/language/version dict built from it; the Python function
implicitly returns `None` when `app_info` is falsy or has no
`"user-agent"` key. -/
def _to_usable_info (uaParse : Json → Json) (app_info : Json) : Option Json :=
  if app_info.truthy && (app_info.lookup kUserAgent).isSome then
    some (uaParse (app_info.lookupD kUserAgent))
  else none

/-!
### Sessions and the client mailbox
-/

/-- `send_init_messages`: enqueue one NETWORK and one ACCOUNTS message for
a session, carrying the record's current RPC and accounts. -/
def send_init_messages (db : DB) (session_id : Nat) (o : LinkedTokens) : DB :=
  { db with
    client_messages := db.client_messages ++
      [{ id := db.next_client_msg_id
         session_id := session_id
         type := .NETWORK
         data := o.current_rpc },
       { id := db.next_client_msg_id + 1
         session_id := session_id
         type := .ACCOUNTS
         data := o.current_accounts }]
    next_client_msg_id := db.next_client_msg_id + 2 }

/-- `generate_init_session`: mint a session (token from `uuid1()`, passed
in as `fresh`) bound to the record, seeding it with the init messages when
the record is already linked. -/
def generate_init_session (db : DB) (o : LinkedTokens) (fresh : String) : DB × String :=
  let s : LinkedSession := { id := db.next_session_id, session_token := fresh, linked_id := o.id }
  let db1 := { db with sessions := db.sessions ++ [s], next_session_id := db.next_session_id + 1 }
  let db2 := if o.linked then send_init_messages db1 s.id o else db1
  (db2, fresh)

/-- One client-mailbox message re-shaped for the poll response, per its
kind (the `else` arm reads the `result` and `call_id` keys that
`wallet_called` stored). -/
def shapeClientMessage (m : LinkedMessage) : Json :=
  match m.type with
  | .NETWORK => .obj [(kType, .str m.type.name), (kId, .num m.id), (kNetworkRpc, m.data)]
  | .ACCOUNTS => .obj [(kType, .str m.type.name), (kId, .num m.id), (kAccounts, m.data)]
  | _ => .obj [(kType, .str m.type.name), (kId, .num m.id),
               (kResult, m.data.lookupD kResult), (kCallId, m.data.lookupD kCallId)]

/-- `get_linked_messages`: the client-mailbox poll.  With a cursor and
`purge`, first delete this session's messages with `id <= cursor`, then
return its remaining messages with `id > cursor`, re-shaped. -/
def get_linked_messages (db : DB) (sess : LinkedSession) (last_message_id : Option Nat)
    (purge : Bool) : DB × List Json :=
  match last_message_id with
  | none =>
    (db, (db.client_messages.filter (fun m => m.session_id == sess.id)).map shapeClientMessage)
  | some c =>
    let db1 :=
      if purge then
        { db with client_messages :=
            db.client_messages.filter (fun m => !(m.session_id == sess.id && decide (m.id ≤ c))) }
      else db
    (db1,
     (db1.client_messages.filter (fun m => m.session_id == sess.id && decide (c < m.id))).map
       shapeClientMessage)

/-!
### The service entry points
-/

/-- The tuple returned by `generate_code`. -/
structure GenResult where
  client_token : String
  session_token : String
  code : String
  linked : Bool

/-- A `LinkedTokens` row as freshly constructed by
`LinkedTokens(client_token=..., linked=False)`: every other column at its
NULL default, primary key `id` assigned at commit time. -/
def blankRecord (id : Nat) (ct : String) : LinkedTokens :=
  { id := id
    client_token := ct
    code := none
    code_expires := none
    linked := false
    wallet_token := none
    current_rpc := .null
    current_accounts := .null
    pending_call := none
    app_info := .null
    linked_at := none
    current_return_url := none }

/-- The body of `generate_code` after the pairing record has been resolved
(`isNew`/`ct`/`obj0`): optional forced relink, code issuance when not
linked, commit, session provisioning and pending-call attachment.
`dissect` abstracts the transaction dissector, `draw` the random code
characters, `fresh_session` the uuid of a session minted on demand. -/
def generate_code_core (dissect : Json → Json → Json) (db : DB) (now : Nat)
    (session_token : String) (return_url : Option String)
    (pending_call : Option Json) (user_agent : Option String) (force_relink : Bool)
    (fresh_session : String) (draw : Nat → Fin 62)
    (isNew : Bool) (ct : String) (obj0 : LinkedTokens) :
    DB × Except String GenResult :=
    let obj1 := if force_relink then { obj0 with linked := false, wallet_token := none } else obj0
    let issued : Except String LinkedTokens :=
      if obj1.linked then .ok obj1
      else
        let obj1a :=
          match user_agent with
          | some ua => { obj1 with app_info := Json.obj [(kUserAgent, .str ua)] }
          | none => obj1
        match _generate_code db now draw with
        | .error e => .error e
        | .ok code =>
          .ok { obj1a with
                code := some code
                code_expires := some (now + minutesToSeconds CODE_EXPIRATION_TIME_MINUTES)
                current_return_url := return_url }
    match issued with
    | .error e => (db, .error e)
    | .ok obj2 =>
      let db1 := commitToken db isNew obj2
      let ses :=
        if !session_token.isEmpty && (findSession db1 session_token obj2.id).isSome then
          (db1, session_token)
        else generate_init_session db1 obj2 fresh_session
      let db2 := ses.1
      let st := ses.2
      let fin :=
        match pending_call with
        | some pc =>
          if pc.truthy && !obj2.linked then
            let pc1 := (pc.insert kSessionToken (.str st)).insert kMeta
              (_get_meta dissect .null (pc.lookupD kCall))
            let o := { obj2 with pending_call := some pc1 }
            (commitToken db2 false o, o)
          else (db2, obj2)
        | none => (db2, obj2)
      let db3 := fin.1
      let objF := fin.2
      (db3,
       if objF.linked then .ok ⟨ct, st, emptyString, true⟩
       else .ok ⟨ct, st, objF.code.getD emptyString, false⟩)

/-- `generate_code` (the `requestCode` entry point): resolve or mint the
pairing record, then run the common body (`generate_code_core`).  An empty
`client_token` mints a fresh record (uuid from `fresh_client`); a
non-empty unknown token dereferences `None` and raises. -/
def generate_code (dissect : Json → Json → Json) (db : DB) (now : Nat)
    (client_token session_token : String) (return_url : Option String)
    (pending_call : Option Json) (user_agent : Option String) (force_relink : Bool)
    (fresh_client fresh_session : String) (draw : Nat → Fin 62) :
    DB × Except String GenResult :=
  let resolved : Option (Bool × String × LinkedTokens) :=
    if client_token.isEmpty then
      some (true, fresh_client, blankRecord db.next_token_id fresh_client)
    else
      match findByClientToken db client_token with
      | none => none
      | some o => some (false, client_token, o)
  match resolved with
  | none => (db, .error errNoneAttribute)
  | some (isNew, ct, obj0) =>
    generate_code_core dissect db now session_token return_url pending_call user_agent
      force_relink fresh_session draw isNew ct obj0

/-- The tuple returned by `link_messages`. -/
structure LMResult where
  client_token : String
  session_token : Option String
  messages : List Json
  linked : Bool

/-- `link_messages` (the `pollClientMessages` entry point): resolve the
client, self-heal a missing or stale session, then poll the client
mailbox with `purge=True`. -/
def link_messages (db : DB) (client_token session_token : String)
    (last_message_id : Option Nat) (fresh1 fresh2 : String) :
    DB × Except String LMResult :=
  if client_token.isEmpty then (db, .ok ⟨client_token, none, [], false⟩)
  else
    match findByClientToken db client_token with
    | none => (db, .ok ⟨emptyString, none, [], false⟩)
    | some obj =>
      if !obj.linked then (db, .ok ⟨client_token, some session_token, [], false⟩)
      else
        let generated := session_token.isEmpty
        let pre :=
          if session_token.isEmpty then generate_init_session db obj fresh1
          else (db, session_token)
        let db1 := pre.1
        let st := pre.2
        match findSession db1 st obj.id with
        | some s =>
          let out := get_linked_messages db1 s last_message_id true
          (out.1, .ok ⟨client_token, some st, out.2, true⟩)
        | none =>
          if generated then (db1, .error errSessionGen)
          else
            let pre2 := generate_init_session db1 obj fresh2
            let db2 := pre2.1
            let st2 := pre2.2
            match findSession db2 st2 obj.id with
            | some s =>
              let out := get_linked_messages db2 s last_message_id true
              (out.1, .ok ⟨client_token, some st2, out.2, true⟩)
            | none => (db2, .error errNoneAttribute)

/-- The tuple returned by `link_wallet`.  `return_url` is `Json` because
the Python function returns the literal `""` on failure but the nullable
column value on success. -/
structure LinkResult where
  return_url : Json
  ok : Bool
  pending_call : Option Json
  app_info : Option Json
  link_id : String
  linked_at : Nat

/-- The failure tuple `"", False, None, None, "", 0`. -/
def failLinkResult : LinkResult :=
  { return_url := .str emptyString
    ok := false
    pending_call := none
    app_info := none
    link_id := emptyString
    linked_at := 0 }

/-- A nullable string column as a JSON value. -/
def jsonOfOptStr : Option String → Json
  | some s => .str s
  | none => .null

/-- The fan-out loop of `link_wallet`: init messages for every session
bound to the record. -/
def fanOut (db : DB) (o : LinkedTokens) : DB :=
  (db.sessions.filter (fun s => s.linked_id == o.id)).foldl
    (fun d s => send_init_messages d s.id o) db

/-- `link_wallet` (the `completeLink` entry point): consume an unexpired
code, bind the wallet, store RPC/accounts, stamp `linked_at`, clear and
return the pending call, and fan out init messages to every bound session
(the Python guard `if unlinked.id:` skips the fan-out for a falsy id). -/
def link_wallet (uaParse : Json → Json) (db : DB) (now : Nat)
    (wallet_token code : String) (current_rpc current_accounts : Json) :
    DB × LinkResult :=
  match findByCode db code now with
  | none => (db, failLinkResult)
  | some u =>
    let last_pending_call := u.pending_call
    let last_user_agent := _to_usable_info uaParse u.app_info
    let u1 := { u with
                wallet_token := some wallet_token
                code := none
                linked := true
                current_rpc := current_rpc
                current_accounts := current_accounts
                linked_at := some now
                pending_call := none }
    let db1 := commitToken db false u1
    let db2 := if u1.id == 0 then db1 else fanOut db1 u1
    (db2,
     { return_url := jsonOfOptStr u1.current_return_url
       ok := true
       pending_call := last_pending_call
       app_info := last_user_agent
       link_id := _hash_id u1.id u1.client_token
       linked_at := to_js_timestamp (u1.linked_at.getD 0) })

/-- `call_wallet` (the `submitCall` entry point): requires a linked record
for the client token (else soft `False`); dereferences `None` when the
session token does not resolve against that record; on success enqueues
one CALL wallet message.  The push-notification block after the commit is
external, but its `accounts[0]` raises on an empty accounts list. -/
def call_wallet (dissect : Json → Json → Json) (db : DB)
    (client_token session_token : String) (accounts : List String)
    (call_id : Json) (call : Json) (return_url : Option String) :
    DB × Except String Bool :=
  if client_token.isEmpty then (db, .ok false)
  else
    match db.tokens.find? (fun t => t.client_token == client_token && t.linked) with
    | none => (db, .ok false)
    | some obj =>
      match findSession db session_token obj.id with
      | none => (db, .error errNoneAttribute)
      | some s =>
        let meta := _get_meta dissect obj.current_rpc call
        let cd0 := Json.obj [(kCallId, call_id), (kCall, call), (kMeta, meta),
                             (kSessionToken, .str s.session_token)]
        let call_data :=
          match return_url with
          | some u => if u.isEmpty then cd0 else cd0.insert kReturnUrl (.str u)
          | none => cd0
        let msg : WalletMessage :=
          { id := db.next_wallet_msg_id
            wallet_token := obj.wallet_token
            current_accounts := accounts
            type := .CALL
            data := call_data }
        let db1 := { db with
                     wallet_messages := db.wallet_messages ++ [msg]
                     next_wallet_msg_id := db.next_wallet_msg_id + 1 }
        if accounts.isEmpty then (db1, .error errIndexOut) else (db1, .ok true)

/-- `wallet_called` (the `deliverResult` entry point): fatal when the
session token resolves to no session, when its pairing record does not
exist, or when the record's wallet token differs from the caller's; else
enqueues one CALL_RESPONSE client message. -/
def wallet_called (db : DB) (wallet_token : String) (call_id : Json)
    (session_token : String) (result : Json) : DB × Except String Bool :=
  match db.sessions.find? (fun s => s.session_token == session_token) with
  | none => (db, .error errSessionMissing)
  | some s =>
    match db.tokens.find? (fun t => t.id == s.linked_id) with
    | none => (db, .error errSessionNotLinked)
    | some obj =>
      if obj.wallet_token == some wallet_token then
        let m : LinkedMessage :=
          { id := db.next_client_msg_id
            session_id := s.id
            type := .CALL_RESPONSE
            data := .obj [(kCallId, call_id), (kResult, result)] }
        ({ db with
           client_messages := db.client_messages ++ [m]
           next_client_msg_id := db.next_client_msg_id + 1 }, .ok true)
      else (db, .error errWalletMismatch)

/-- `unlink`: idempotent soft unlink; flips `linked` off, keeps the
wallet token. -/
def unlink (db : DB) (client_token : String) : DB × Bool :=
  match findByClientToken db client_token with
  | none => (db, true)
  | some u =>
    if !u.linked then (db, true)
    else (commitToken db false { u with linked := false }, true)

/-- `unlink_wallet` (the `unlinkByWallet` entry point): scan the wallet's
records for a linked one whose obfuscated id matches, unlink it and clear
its wallet token to the empty string. -/
def unlink_wallet (db : DB) (wallet_token link_id : String) : DB × Bool :=
  match (db.tokens.filter (fun t => t.wallet_token == some wallet_token)).find?
      (fun t => t.linked && _hash_id t.id t.client_token == link_id) with
  | none => (db, false)
  | some u =>
    (commitToken db false { u with linked := false, wallet_token := some emptyString }, true)

/-- One wallet-mailbox message re-shaped for the poll response. -/
def shapeWalletMessage (m : WalletMessage) : Json :=
  match m.type with
  | .CALL =>
    let base := Json.obj [(kType, .str m.type.name), (kId, .num m.id),
                          (kCall, m.data.lookupD kCall), (kMeta, m.data.lookupD kMeta),
                          (kCallId, m.data.lookupD kCallId)]
    let withSess :=
      match m.data.lookup kSessionToken with
      | some v => base.insert kSessionToken v
      | none => base
    match m.data.lookup kReturnUrl with
    | some v => if v.truthy then withSess.insert kReturnUrl v else withSess
    | none => withSess
  | _ => .obj [(kType, .str m.type.name), (kId, .num m.id)]

/-- `wallet_messages` (the `pollWalletMessages` entry point): the wallet
mailbox poll, filtered by wallet token and by the accounts-snapshot
containment hack; with a cursor, purge `id <= cursor` first.
`accounts[0]` raises on an empty list. -/
def wallet_messages (db : DB) (wallet_token : String) (accounts : List String)
    (last_message_id : Option Nat) : DB × Except String (List Json) :=
  if wallet_token.isEmpty then (db, .ok [])
  else
    match accounts with
    | [] => (db, .error errIndexOut)
    | a0 :: _ =>
      let base := fun (m : WalletMessage) =>
        m.wallet_token == some wallet_token && m.current_accounts.contains a0
      match last_message_id with
      | none => (db, .ok ((db.wallet_messages.filter base).map shapeWalletMessage))
      | some c =>
        let db1 := { db with wallet_messages :=
          db.wallet_messages.filter (fun m => !(base m && decide (m.id ≤ c))) }
        (db1, .ok ((db1.wallet_messages.filter (fun m => base m && decide (c < m.id))).map
          shapeWalletMessage))

/-!
### Specification-side definitions

Below: an explicit description of the messages the fan-out loop appends, the
record invariant and reachability relation of the state-machine claims, and
concrete fixtures used by witnesses.
-/

/-- The list of client messages that the `link_wallet` fan-out appends for
the bound sessions `ss`, message ids counting up from `start`. -/
def mkFan (o : LinkedTokens) : List LinkedSession → Nat → List LinkedMessage
  | [], _ => []
  | s :: rest, start =>
    { id := start, session_id := s.id, type := .NETWORK, data := o.current_rpc } ::
    { id := start + 1, session_id := s.id, type := .ACCOUNTS, data := o.current_accounts } ::
    mkFan o rest (start + 2)

/-- The spec's per-record invariant: a live code implies unlinked; linked
implies a wallet token, no code, and no pending call. -/
def RecOK (r : LinkedTokens) : Prop :=
  (r.code.isSome = true → r.linked = false) ∧
  (r.linked = true → r.wallet_token.isSome = true ∧ r.code = none) ∧
  (r.linked = true → r.pending_call = none)

/-- The invariant over the whole table. -/
def Inv (db : DB) : Prop := ∀ r ∈ db.tokens, RecOK r

/-- Well-formedness of the primary-key counter: every row id is below the
next id to be handed out. -/
def TokensIdBound (db : DB) : Prop := ∀ r ∈ db.tokens, r.id < db.next_token_id

/-- No two simultaneously active codes at any time `t` from `tm` on: records
holding equal unexpired codes are the same row. -/
def CodesDistinct (db : DB) (tm : Nat) : Prop :=
  ∀ t, tm ≤ t → ∀ r1 ∈ db.tokens, ∀ r2 ∈ db.tokens, ∀ c : String,
    r1.code = some c → r2.code = some c →
    expiresAfter r1.code_expires t = true → expiresAfter r2.code_expires t = true →
    r1.id = r2.id

/-- Primary keys of the pairing table are pairwise distinct. -/
def TokensNodup (db : DB) : Prop := (db.tokens.map LinkedTokens.id).Nodup

/-- The combined inductive invariant carried through reachability: the
record invariant, well-formed primary keys, and distinctness of
simultaneously active codes from time `tm` on. -/
def GoodState (db : DB) (tm : Nat) : Prop :=
  Inv db ∧ TokensIdBound db ∧ TokensNodup db ∧ CodesDistinct db tm

/-- States reachable from the empty database by any sequence of the core
operations, at nondecreasing operation times.  Each step keeps the state
component of the operation's result, whether the call returned or raised
(an operation that raises has already committed exactly the state its
result carries). -/
inductive Reach : DB → Nat → Prop where
  | init : Reach emptyDB 0
  | requestCode {db t} (t' : Nat) (dissect : Json → Json → Json) (ct st : String)
      (ru : Option String) (pc : Option Json) (ua : Option String) (fr : Bool)
      (fc fs : String) (draw : Nat → Fin 62) : Reach db t → t ≤ t' →
      Reach (generate_code dissect db t' ct st ru pc ua fr fc fs draw).1 t'
  | completeLink {db t} (t' : Nat) (uap : Json → Json) (wt code : String)
      (rpc accs : Json) : Reach db t → t ≤ t' →
      Reach (link_wallet uap db t' wt code rpc accs).1 t'
  | clientPoll {db t} (t' : Nat) (ct st : String) (lmi : Option Nat) (f1 f2 : String) :
      Reach db t → t ≤ t' → Reach (link_messages db ct st lmi f1 f2).1 t'
  | walletPoll {db t} (t' : Nat) (wt : String) (accs : List String) (lmi : Option Nat) :
      Reach db t → t ≤ t' → Reach (wallet_messages db wt accs lmi).1 t'
  | submitCall {db t} (t' : Nat) (dissect : Json → Json → Json) (ct st : String)
      (accs : List String) (cid call : Json) (ru : Option String) : Reach db t → t ≤ t' →
      Reach (call_wallet dissect db ct st accs cid call ru).1 t'
  | deliverResult {db t} (t' : Nat) (wt : String) (cid : Json) (st : String) (res : Json) :
      Reach db t → t ≤ t' → Reach (wallet_called db wt cid st res).1 t'
  | unlinkStep {db t} (t' : Nat) (ct : String) : Reach db t → t ≤ t' →
      Reach (unlink db ct).1 t'
  | unlinkWalletStep {db t} (t' : Nat) (wt lid : String) : Reach db t → t ≤ t' →
      Reach (unlink_wallet db wt lid).1 t'

/-- The first 16 hex digits of the `_hash_id` digest, as `Fin 16` values. -/
def hashDigits (exposed_id : Nat) (key : String) : List (Fin 16) :=
  (sha3_224_hexDigits (strBytes (toString exposed_id ++ key))).take 16

/-- Pairwise-distinct secrets indexed by `Nat`. -/
def secretOfNat (n : Nat) : String := String.mk (List.replicate n 'a')

/-- The truncated digest of secret `n` for a fixed id, packaged as a
function on `Fin 16` (a finite codomain for the pigeonhole argument). -/
def hashDigitFun (exposed_id : Nat) (n : Nat) : Fin 16 → Fin 16 :=
  fun i => (hashDigits exposed_id (secretOfNat n)).getD i.val 0

/-!
### Concrete fixtures for witnesses and counterexamples
-/

/-- A trivial stand-in for the external transaction dissector. -/
def dissect0 : Json → Json → Json := fun _ _ => Json.obj []

/-- A trivial stand-in for the external user-agent parser. -/
def uapId : Json → Json := fun j => j

/-- A constant random stream: every attempt draws the first alphabet char. -/
def draw0 : Nat → Fin 62 := fun _ => ⟨0, by decide⟩

def sampleCode : String := "Abc123XYZ"

def ctSample : String := "client-token-1"

def stSample : String := "session-token-1"

def wtSample : String := "wallet-token-1"

def urlSample : String := "https://dapp.example/return"

def unknownToken : String := "no-such-client-token"

/-- A pairing record holding an unexpired code (expiry 50) and a pending
call, as left by `generate_code` with a pending call attached. -/
def codedRecord : LinkedTokens :=
  { id := 1
    client_token := ctSample
    code := some sampleCode
    code_expires := some 50
    linked := false
    wallet_token := none
    current_rpc := .null
    current_accounts := .null
    pending_call := some (Json.obj [(kCallId, Json.str emptyString)])
    app_info := .null
    linked_at := none
    current_return_url := some urlSample }

/-- A database with one coded record and one session bound to it. -/
def dbCoded : DB :=
  { tokens := [codedRecord]
    sessions := [{ id := 1, session_token := stSample, linked_id := 1 }]
    client_messages := []
    wallet_messages := []
    next_token_id := 2
    next_session_id := 2
    next_client_msg_id := 1
    next_wallet_msg_id := 1 }

/-- A linked record bound to `wtSample`. -/
def linkedRecord : LinkedTokens :=
  { id := 1
    client_token := ctSample
    code := none
    code_expires := none
    linked := true
    wallet_token := some wtSample
    current_rpc := .str emptyString
    current_accounts := .arr []
    pending_call := none
    app_info := .null
    linked_at := some 7
    current_return_url := none }

/-- A database with one linked record and one bound session. -/
def dbLinked : DB :=
  { tokens := [linkedRecord]
    sessions := [{ id := 1, session_token := stSample, linked_id := 1 }]
    client_messages := []
    wallet_messages := []
    next_token_id := 2
    next_session_id := 2
    next_client_msg_id := 1
    next_wallet_msg_id := 1 }

/-- The record after `unlink`: `linked` is off but the wallet token is
still stored - exactly the shape `unlink` leaves behind. -/
def unlinkedRecord : LinkedTokens := { linkedRecord with linked := false }

/-- A database reproducing the post-`unlink` shape: session still present,
record not linked, wallet token retained. -/
def dbUnlinked : DB := { dbLinked with tokens := [unlinkedRecord] }

/-- A session token that resolves to nothing. -/
def badSession : String := "no-such-session"

/-- A mailbox fixture: linked record, two sessions, four client messages. -/
def dbMail : DB :=
  { tokens := [linkedRecord]
    sessions := [{ id := 1, session_token := stSample, linked_id := 1 },
                 { id := 2, session_token := badSession, linked_id := 1 }]
    client_messages :=
      [{ id := 1, session_id := 1, type := .NETWORK, data := .null },
       { id := 2, session_id := 1, type := .ACCOUNTS, data := .null },
       { id := 3, session_id := 2, type := .CALL_RESPONSE,
         data := .obj [(kCallId, .null), (kResult, .null)] },
       { id := 4, session_id := 1, type := .CALL_RESPONSE,
         data := .obj [(kCallId, .null), (kResult, .null)] }]
    wallet_messages := []
    next_token_id := 2
    next_session_id := 3
    next_client_msg_id := 5
    next_wallet_msg_id := 1 }

/-!
## Theorems

First, characterizations of the fan-out loop and small counting lemmas.
-/

theorem foldl_send_init (o : LinkedTokens) : ∀ (ss : List LinkedSession) (db : DB),
    ss.foldl (fun d s => send_init_messages d s.id o) db =
    { db with
      client_messages := db.client_messages ++ mkFan o ss db.next_client_msg_id
      next_client_msg_id := db.next_client_msg_id + 2 * ss.length } := by
  intro ss
  induction ss with
  | nil => intro db; simp [mkFan]
  | cons s rest ih =>
    intro db
    rw [List.foldl_cons, ih]
    simp only [send_init_messages, mkFan]
    congr 1
    · simp [List.append_assoc]
    · simp only [List.length_cons, Nat.mul_succ]
      omega

theorem fanOut_eq (db : DB) (o : LinkedTokens) :
    fanOut db o =
    { db with
      client_messages := db.client_messages ++
        mkFan o (db.sessions.filter (fun s => s.linked_id == o.id)) db.next_client_msg_id
      next_client_msg_id :=
        db.next_client_msg_id + 2 * (db.sessions.filter (fun s => s.linked_id == o.id)).length } :=
  foldl_send_init o _ db

theorem mkFan_mem (o : LinkedTokens) : ∀ (ss : List LinkedSession) (start : Nat)
    (m : LinkedMessage), m ∈ mkFan o ss start →
    ((m.type = .NETWORK ∧ m.data = o.current_rpc) ∨
     (m.type = .ACCOUNTS ∧ m.data = o.current_accounts)) ∧
    ∃ s ∈ ss, m.session_id = s.id := by
  intro ss
  induction ss with
  | nil => intro start m hm; simp [mkFan] at hm
  | cons s rest ih =>
    intro start m hm
    simp only [mkFan, List.mem_cons] at hm
    rcases hm with h | h | h
    · subst h; exact ⟨Or.inl ⟨rfl, rfl⟩, s, List.mem_cons_self .., rfl⟩
    · subst h; exact ⟨Or.inr ⟨rfl, rfl⟩, s, List.mem_cons_self .., rfl⟩
    · obtain ⟨hty, s', hs', hsid⟩ := ih (start + 2) m h
      exact ⟨hty, s', List.mem_cons_of_mem _ hs', hsid⟩

theorem mkFan_countP_net (o : LinkedTokens) (sid : Nat) : ∀ (ss : List LinkedSession)
    (start : Nat),
    (mkFan o ss start).countP (fun m => m.session_id == sid && m.type == MessageTypes.NETWORK) =
    ss.countP (fun s => s.id == sid) := by
  intro ss
  induction ss with
  | nil => intro start; simp [mkFan]
  | cons s rest ih =>
    intro start
    simp only [mkFan, List.countP_cons, ih (start + 2)]
    by_cases h : s.id = sid <;> simp [h]

theorem mkFan_countP_acc (o : LinkedTokens) (sid : Nat) : ∀ (ss : List LinkedSession)
    (start : Nat),
    (mkFan o ss start).countP (fun m => m.session_id == sid && m.type == MessageTypes.ACCOUNTS) =
    ss.countP (fun s => s.id == sid) := by
  intro ss
  induction ss with
  | nil => intro start; simp [mkFan]
  | cons s rest ih =>
    intro start
    simp only [mkFan, List.countP_cons, ih (start + 2)]
    by_cases h : s.id = sid <;> simp [h]

theorem mkFan_countP_sess (o : LinkedTokens) (sid : Nat) : ∀ (ss : List LinkedSession)
    (start : Nat),
    (mkFan o ss start).countP (fun m => m.session_id == sid) =
    2 * ss.countP (fun s => s.id == sid) := by
  intro ss
  induction ss with
  | nil => intro start; simp [mkFan]
  | cons s rest ih =>
    intro start
    simp only [mkFan, List.countP_cons, ih (start + 2)]
    by_cases h : s.id = sid
    · simp [h]
      omega
    · simp [h]

theorem countP_id_eq_one {ss : List LinkedSession}
    (hnd : (ss.map LinkedSession.id).Nodup) {s : LinkedSession} (hs : s ∈ ss) :
    ss.countP (fun x => x.id == s.id) = 1 := by
  have h1 : ss.countP (fun x => x.id == s.id) = (ss.map LinkedSession.id).count s.id := by
    rw [List.count, List.countP_map]
    rfl
  rw [h1]
  exact List.count_eq_one_of_mem hnd (List.mem_map_of_mem _ hs)

theorem countP_id_eq_zero {ss : List LinkedSession} {sid : Nat}
    (h : ∀ x ∈ ss, x.id ≠ sid) :
    ss.countP (fun x => x.id == sid) = 0 :=
  List.countP_eq_zero.mpr (by intro a ha; simpa using h a ha)

/-- C2: `completeLink` (`link_wallet`) with a code that matches no record
with an unexpired expiry returns the failure tuple and leaves the entire
state - every record and all four tables - unchanged. -/
theorem claim_C2_completeLink_unknown_code_noop (uaParse : Json → Json) (db : DB)
    (now : Nat) (wt code : String) (rpc accs : Json)
    (h : findByCode db code now = none) :
    link_wallet uaParse db now wt code rpc accs = (db, failLinkResult) := by
  unfold link_wallet
  rw [h]

/-- Witness for C2 at a concrete input: the empty database knows no code. -/
theorem claim_C2_witness :
    findByCode emptyDB sampleCode 0 = none ∧
    link_wallet uapId emptyDB 0 wtSample sampleCode .null .null = (emptyDB, failLinkResult) :=
  ⟨rfl, claim_C2_completeLink_unknown_code_noop uapId emptyDB 0 wtSample sampleCode .null .null
    rfl⟩

/-- C1: a successful `completeLink` (`link_wallet`) on the record reachable
by an unexpired code clears `code`, sets `linked`, stores the caller's
wallet token, RPC and accounts, stamps `linked_at`, clears `pending_call`,
and returns the previously stored pending call exactly once: it is no
longer on the record and the only messages added to any mailbox are
NETWORK/ACCOUNTS fan-out messages (the wallet mailbox is untouched). -/
theorem claim_C1_completeLink_success (uaParse : Json → Json) (db : DB) (now : Nat)
    (wt code : String) (rpc accs : Json) (r : LinkedTokens)
    (h : findByCode db code now = some r) :
    let res := link_wallet uaParse db now wt code rpc accs
    res.2.ok = true ∧
    res.2.pending_call = r.pending_call ∧
    res.1.tokens = db.tokens.map (fun t =>
      if t.id == r.id then
        { r with
          wallet_token := some wt
          code := none
          linked := true
          current_rpc := rpc
          current_accounts := accs
          linked_at := some now
          pending_call := none }
      else t) ∧
    res.1.sessions = db.sessions ∧
    res.1.wallet_messages = db.wallet_messages ∧
    ∀ m ∈ res.1.client_messages,
      m ∈ db.client_messages ∨ m.type = .NETWORK ∨ m.type = .ACCOUNTS := by
  unfold link_wallet
  rw [h]
  dsimp only
  by_cases hid : (r.id == 0) = true
  · rw [if_pos hid]
    exact ⟨rfl, rfl, rfl, rfl, rfl, fun m hm => Or.inl hm⟩
  · rw [if_neg hid, fanOut_eq]
    refine ⟨rfl, rfl, rfl, rfl, rfl, ?_⟩
    intro m hm
    rcases List.mem_append.mp hm with h1 | h1
    · exact Or.inl h1
    · rcases (mkFan_mem _ _ _ _ h1).1 with ⟨hty, _⟩ | ⟨hty, _⟩
      · exact Or.inr (Or.inl hty)
      · exact Or.inr (Or.inr hty)

/-- Witness for C1 at a concrete input: linking `dbCoded` by its code. -/
theorem claim_C1_witness :
    findByCode dbCoded sampleCode 10 = some codedRecord ∧
    (let res := link_wallet uapId dbCoded 10 wtSample sampleCode .null .null
     res.2.ok = true ∧
     res.2.pending_call = codedRecord.pending_call ∧
     res.1.tokens = dbCoded.tokens.map (fun t =>
       if t.id == codedRecord.id then
         { codedRecord with
           wallet_token := some wtSample
           code := none
           linked := true
           current_rpc := .null
           current_accounts := .null
           linked_at := some 10
           pending_call := none }
       else t) ∧
     res.1.sessions = dbCoded.sessions ∧
     res.1.wallet_messages = dbCoded.wallet_messages ∧
     ∀ m ∈ res.1.client_messages,
       m ∈ dbCoded.client_messages ∨ m.type = .NETWORK ∨ m.type = .ACCOUNTS) :=
  ⟨rfl, claim_C1_completeLink_success uapId dbCoded 10 wtSample sampleCode .null .null
    codedRecord rfl⟩

/-- C3: a successful `completeLink` appends, for each session bound to the
linked record at that moment, exactly one NETWORK message and exactly one
ACCOUNTS message (carrying the new RPC and accounts), and appends nothing
for sessions bound to other records; the pre-existing mailbox content is
untouched, so a later re-link fans out fresh messages instead of
re-delivering old ones.  (`r.id ≠ 0` reflects the `if unlinked.id:` guard;
distinct session ids are database well-formedness.) -/
theorem claim_C3_completeLink_fanout (uaParse : Json → Json) (db : DB) (now : Nat)
    (wt code : String) (rpc accs : Json) (r : LinkedTokens)
    (h : findByCode db code now = some r) (hid : r.id ≠ 0)
    (hnd : (db.sessions.map LinkedSession.id).Nodup) :
    let res := link_wallet uaParse db now wt code rpc accs
    let newMsgs := res.1.client_messages.drop db.client_messages.length
    res.1.client_messages.take db.client_messages.length = db.client_messages ∧
    (∀ m ∈ newMsgs, (m.type = .NETWORK → m.data = rpc) ∧ (m.type = .ACCOUNTS → m.data = accs)) ∧
    (∀ s ∈ db.sessions, s.linked_id = r.id →
      newMsgs.countP (fun m => m.session_id == s.id && m.type == MessageTypes.NETWORK) = 1 ∧
      newMsgs.countP (fun m => m.session_id == s.id && m.type == MessageTypes.ACCOUNTS) = 1) ∧
    (∀ s ∈ db.sessions, s.linked_id ≠ r.id →
      newMsgs.countP (fun m => m.session_id == s.id) = 0) := by
  unfold link_wallet
  rw [h]
  dsimp only
  rw [if_neg (by simpa using hid), fanOut_eq]
  dsimp only [commitToken]
  rw [if_neg (by simp)]
  dsimp only
  have hdrop :
      (db.client_messages ++
        mkFan { r with
                wallet_token := some wt
                code := none
                linked := true
                current_rpc := rpc
                current_accounts := accs
                linked_at := some now
                pending_call := none }
          (db.sessions.filter (fun s => s.linked_id == r.id)) db.next_client_msg_id).drop
        db.client_messages.length =
      mkFan { r with
              wallet_token := some wt
              code := none
              linked := true
              current_rpc := rpc
              current_accounts := accs
              linked_at := some now
              pending_call := none }
        (db.sessions.filter (fun s => s.linked_id == r.id)) db.next_client_msg_id :=
    List.drop_left _ _
  rw [hdrop, List.take_left]
  set uRec : LinkedTokens :=
    { r with
      wallet_token := some wt
      code := none
      linked := true
      current_rpc := rpc
      current_accounts := accs
      linked_at := some now
      pending_call := none } with hu
  set ss := db.sessions.filter (fun s => s.linked_id == r.id) with hss
  have hndss : (ss.map LinkedSession.id).Nodup := by
    have hsub : ss.Sublist db.sessions := by rw [hss]; exact List.filter_sublist _
    exact (hsub.map LinkedSession.id).nodup hnd
  refine ⟨rfl, ?_, ?_, ?_⟩
  · intro m hm
    rcases (mkFan_mem _ _ _ _ hm).1 with ⟨hty, hdata⟩ | ⟨hty, hdata⟩ <;>
      constructor <;> intro h2 <;> simp_all
  · intro s hs hbound
    have hmem : s ∈ ss := by
      rw [hss]
      exact List.mem_filter.mpr ⟨hs, by simpa using hbound⟩
    exact ⟨by rw [mkFan_countP_net, countP_id_eq_one hndss hmem],
           by rw [mkFan_countP_acc, countP_id_eq_one hndss hmem]⟩
  · intro s hs hnb
    rw [mkFan_countP_sess]
    have hzero : ss.countP (fun x => x.id == s.id) = 0 := by
      refine countP_id_eq_zero ?_
      intro x hx
      have hxs : x ∈ db.sessions ∧ x.linked_id = r.id := by
        have := List.mem_filter.mp (hss ▸ hx)
        exact ⟨this.1, by simpa using this.2⟩
      intro heq
      have hxe : x = s := List.inj_on_of_nodup_map hnd hxs.1 hs heq
      exact hnb (hxe ▸ hxs.2)
    rw [hzero]

/-- Witness for C3: linking `dbCoded` (one bound session, id 1). -/
theorem claim_C3_witness :
    findByCode dbCoded sampleCode 10 = some codedRecord ∧ codedRecord.id ≠ 0 ∧
    (dbCoded.sessions.map LinkedSession.id).Nodup ∧
    (let res := link_wallet uapId dbCoded 10 wtSample sampleCode (.str emptyString) (.arr [])
     let newMsgs := res.1.client_messages.drop dbCoded.client_messages.length
     res.1.client_messages.take dbCoded.client_messages.length = dbCoded.client_messages ∧
     (∀ m ∈ newMsgs, (m.type = .NETWORK → m.data = .str emptyString) ∧
        (m.type = .ACCOUNTS → m.data = .arr [])) ∧
     (∀ s ∈ dbCoded.sessions, s.linked_id = codedRecord.id →
       newMsgs.countP (fun m => m.session_id == s.id && m.type == MessageTypes.NETWORK) = 1 ∧
       newMsgs.countP (fun m => m.session_id == s.id && m.type == MessageTypes.ACCOUNTS) = 1) ∧
     (∀ s ∈ dbCoded.sessions, s.linked_id ≠ codedRecord.id →
       newMsgs.countP (fun m => m.session_id == s.id) = 0)) :=
  ⟨rfl, by decide, by decide,
   claim_C3_completeLink_fanout uapId dbCoded 10 wtSample sampleCode (.str emptyString)
     (.arr []) codedRecord rfl (by decide) (by decide)⟩

/-- C4: the client-mailbox poll with purge and cursor `c` deletes exactly
this session's messages with `id ≤ c` (touching no other table and no
other session's messages), and returns exactly this session's remaining
messages with `id > c`, re-shaped per kind by `shapeClientMessage`, in
ascending id order (granted the mailbox is id-sorted, which the
append-only enqueue maintains). -/
theorem claim_C4_purge_poll (db : DB) (sess : LinkedSession) (c : Nat)
    (hs : db.client_messages.Pairwise (fun a b => a.id < b.id)) :
    let res := get_linked_messages db sess (some c) true
    res.1.client_messages =
      db.client_messages.filter (fun m => !(m.session_id == sess.id && decide (m.id ≤ c))) ∧
    res.1.tokens = db.tokens ∧
    res.1.sessions = db.sessions ∧
    res.1.wallet_messages = db.wallet_messages ∧
    res.2 = (db.client_messages.filter
      (fun m => m.session_id == sess.id && decide (c < m.id))).map shapeClientMessage ∧
    (db.client_messages.filter
      (fun m => m.session_id == sess.id && decide (c < m.id))).Pairwise
      (fun a b => a.id < b.id) := by
  have hff :
      (db.client_messages.filter
          (fun m => !(m.session_id == sess.id && decide (m.id ≤ c)))).filter
        (fun m => m.session_id == sess.id && decide (c < m.id)) =
      db.client_messages.filter (fun m => m.session_id == sess.id && decide (c < m.id)) := by
    rw [List.filter_filter]
    congr 1
    funext m
    by_cases h1 : m.session_id = sess.id
    · by_cases h2 : c < m.id
      · have h3 : ¬(m.id ≤ c) := by omega
        simp [h1, h2, h3]
      · simp [h1, h2]
    · simp [h1]
  refine ⟨rfl, rfl, rfl, rfl, ?_, hs.filter _⟩
  show ((db.client_messages.filter
      (fun m => !(m.session_id == sess.id && decide (m.id ≤ c)))).filter
      (fun m => m.session_id == sess.id && decide (c < m.id))).map shapeClientMessage = _
  rw [hff]

/-- Witness for C4 on `dbMail` with cursor 2: ids 1 and 2 of session 1 are
purged, id 4 is returned, session 2's message id 3 survives. -/
theorem claim_C4_witness :
    dbMail.client_messages.Pairwise (fun a b => a.id < b.id) ∧
    (let res := get_linked_messages dbMail { id := 1, session_token := stSample, linked_id := 1 }
       (some 2) true
     res.1.client_messages =
       dbMail.client_messages.filter (fun m => !(m.session_id == 1 && decide (m.id ≤ 2))) ∧
     res.1.tokens = dbMail.tokens ∧
     res.1.sessions = dbMail.sessions ∧
     res.1.wallet_messages = dbMail.wallet_messages ∧
     res.2 = (dbMail.client_messages.filter
       (fun m => m.session_id == 1 && decide (2 < m.id))).map shapeClientMessage ∧
     (dbMail.client_messages.filter
       (fun m => m.session_id == 1 && decide (2 < m.id))).Pairwise (fun a b => a.id < b.id)) :=
  ⟨by decide,
   claim_C4_purge_poll dbMail { id := 1, session_token := stSample, linked_id := 1 } 2
     (by decide)⟩

/-- C5 counterexample: the claim demands a fatal error whenever the
session's pairing record is not linked, but `wallet_called` only checks
that the record row exists and that the wallet token matches.  On
`dbUnlinked` - the exact state `unlink` leaves behind (`linked = false`,
wallet token retained) - it succeeds and enqueues a message. -/
theorem claim_C5_counterexample :
    (∀ r ∈ dbUnlinked.tokens, r.linked = false) ∧
    (wallet_called dbUnlinked wtSample (Json.str emptyString) stSample Json.null).2 =
      .ok true ∧
    (wallet_called dbUnlinked wtSample (Json.str emptyString) stSample
      Json.null).1.client_messages.length = dbUnlinked.client_messages.length + 1 :=
  ⟨by decide, rfl, rfl⟩

/-- C5 amended: `wallet_called` raises exactly when the session token
resolves to no session, the session's pairing record row does not exist,
or the record's wallet token differs from the caller's (being unlinked is
NOT checked); whenever it raises the state is unchanged and nothing is
enqueued, and on the non-fatal path it enqueues exactly one CALL_RESPONSE
client message carrying the call id and result for that session and
returns true. -/
theorem claim_C5_deliverResult_fatal_paths (db : DB) (wt : String) (cid : Json)
    (st : String) (result : Json) :
    let out := wallet_called db wt cid st result
    ((∃ e, out.2 = .error e) ↔
      db.sessions.find? (fun s => s.session_token == st) = none ∨
      (∃ s, db.sessions.find? (fun s => s.session_token == st) = some s ∧
        (db.tokens.find? (fun t => t.id == s.linked_id) = none ∨
         (∃ obj, db.tokens.find? (fun t => t.id == s.linked_id) = some obj ∧
           obj.wallet_token ≠ some wt)))) ∧
    ((∃ e, out.2 = .error e) → out.1 = db) ∧
    (out.2 = .ok true →
      ∃ s, db.sessions.find? (fun s => s.session_token == st) = some s ∧
        out.1.client_messages = db.client_messages ++
          [{ id := db.next_client_msg_id, session_id := s.id, type := .CALL_RESPONSE,
             data := .obj [(kCallId, cid), (kResult, result)] }] ∧
        out.1.tokens = db.tokens ∧
        out.1.sessions = db.sessions ∧
        out.1.wallet_messages = db.wallet_messages) := by
  unfold wallet_called
  cases hsf : db.sessions.find? (fun s => s.session_token == st) with
  | none =>
    dsimp only
    refine ⟨⟨fun _ => Or.inl rfl, fun _ => ⟨errSessionMissing, rfl⟩⟩, fun _ => rfl, ?_⟩
    intro hok
    exact absurd hok (by simp)
  | some s =>
    dsimp only
    cases htf : db.tokens.find? (fun t => t.id == s.linked_id) with
    | none =>
      dsimp only
      refine ⟨⟨fun _ => Or.inr ⟨s, rfl, Or.inl htf⟩, fun _ => ⟨errSessionNotLinked, rfl⟩⟩,
        fun _ => rfl, ?_⟩
      intro hok
      exact absurd hok (by simp)
    | some obj =>
      dsimp only
      by_cases hwt : (obj.wallet_token == some wt) = true
      · rw [if_pos hwt]
        refine ⟨⟨?_, ?_⟩, ?_, ?_⟩
        · rintro ⟨e, he⟩
          exact absurd he (by simp)
        · rintro (h | ⟨s', hs', h⟩)
          · exact absurd h (by simp)
          · cases hs'
            rcases h with h | ⟨obj', hobj', hne⟩
            · exact absurd h (by simp [htf])
            · rw [htf] at hobj'
              cases hobj'
              exact absurd (eq_of_beq hwt) hne
        · rintro ⟨e, he⟩
          exact absurd he (by simp)
        · intro _
          exact ⟨s, rfl, rfl, rfl, rfl, rfl⟩
      · rw [if_neg hwt]
        refine ⟨⟨?_, ?_⟩, fun _ => rfl, ?_⟩
        · intro _
          exact Or.inr ⟨s, rfl, Or.inr ⟨obj, htf, by simpa using hwt⟩⟩
        · intro _
          exact ⟨errWalletMismatch, rfl⟩
        · intro hok
          exact absurd hok (by simp)

/-- C6 counterexample: the claim says `requestCode` (`generate_code`)
returns without raising on a non-empty unknown client token; in fact the
lookup yields `None` and `linked_obj.linked` raises an `AttributeError`
(state unchanged). -/
theorem claim_C6_counterexample :
    findByClientToken emptyDB unknownToken = none ∧
    unknownToken.isEmpty = false ∧
    generate_code dissect0 emptyDB 0 unknownToken emptyString none none none false
      ctSample stSample draw0 = (emptyDB, .error errNoneAttribute) :=
  ⟨rfl, by decide, rfl⟩

/-- C6 amended: for a non-empty client token matching no pairing record,
`link_messages` returns the empty client token with no messages and
`linked = false`, `call_wallet` returns `False`, and `unlink` returns
success - all without raising and without touching the state - while
`generate_code` raises an `AttributeError` (`None` dereference), also
leaving the state unchanged. -/
theorem claim_C6_unknown_client_token (db : DB) (ct : String)
    (hne : ct.isEmpty = false) (hnone : findByClientToken db ct = none)
    (st : String) (lmi : Option Nat) (f1 f2 : String)
    (dissect : Json → Json → Json) (accs : List String) (cid call : Json)
    (ru : Option String) (now : Nat) (pc : Option Json) (ua : Option String)
    (fr : Bool) (fc fs : String) (draw : Nat → Fin 62) :
    link_messages db ct st lmi f1 f2 = (db, .ok ⟨emptyString, none, [], false⟩) ∧
    call_wallet dissect db ct st accs cid call ru = (db, .ok false) ∧
    unlink db ct = (db, true) ∧
    generate_code dissect db now ct st ru pc ua fr fc fs draw =
      (db, .error errNoneAttribute) := by
  have hlinked : db.tokens.find? (fun t => t.client_token == ct && t.linked) = none := by
    rw [List.find?_eq_none]
    intro t ht
    have := (List.find?_eq_none.mp hnone) t ht
    simp only [Bool.and_eq_true] at *
    intro hc
    exact this hc.1
  refine ⟨?_, ?_, ?_, ?_⟩
  · unfold link_messages
    rw [if_neg (by simp [hne]), hnone]
  · unfold call_wallet
    rw [if_neg (by simp [hne]), hlinked]
  · unfold unlink
    rw [hnone]
  · unfold generate_code
    rw [if_neg (by simp [hne]), hnone]

/-- Witness for C6: the empty database and the unknown token. -/
theorem claim_C6_witness :
    unknownToken.isEmpty = false ∧ findByClientToken emptyDB unknownToken = none ∧
    (link_messages emptyDB unknownToken emptyString none ctSample stSample =
      (emptyDB, .ok ⟨emptyString, none, [], false⟩) ∧
     call_wallet dissect0 emptyDB unknownToken emptyString [] .null .null none =
      (emptyDB, .ok false) ∧
     unlink emptyDB unknownToken = (emptyDB, true) ∧
     generate_code dissect0 emptyDB 0 unknownToken emptyString none none none false
       ctSample stSample draw0 = (emptyDB, .error errNoneAttribute)) :=
  ⟨by decide, rfl,
   claim_C6_unknown_client_token emptyDB unknownToken (by decide) rfl emptyString none
     ctSample stSample dissect0 [] .null .null none 0 none none false ctSample stSample
     draw0⟩

/-- C10: `call_wallet` with a client token resolving to a linked record
but a session token resolving to no session of that record raises (the
`None` dereference when the call payload reads `session_obj.session_token`)
instead of returning `False`, and enqueues nothing (state unchanged). -/
theorem claim_C10_submitCall_bad_session (dissect : Json → Json → Json) (db : DB)
    (ct st : String) (accs : List String) (cid call : Json) (ru : Option String)
    (obj : LinkedTokens) (hne : ct.isEmpty = false)
    (hobj : db.tokens.find? (fun t => t.client_token == ct && t.linked) = some obj)
    (hsess : findSession db st obj.id = none) :
    call_wallet dissect db ct st accs cid call ru = (db, .error errNoneAttribute) := by
  unfold call_wallet
  rw [if_neg (by simp [hne]), hobj]
  dsimp only
  rw [hsess]

/-- Witness for C10: `dbLinked` with an unknown session token. -/
theorem claim_C10_witness :
    ctSample.isEmpty = false ∧
    dbLinked.tokens.find? (fun t => t.client_token == ctSample && t.linked) =
      some linkedRecord ∧
    findSession dbLinked badSession linkedRecord.id = none ∧
    call_wallet dissect0 dbLinked ctSample badSession [] .null .null none =
      (dbLinked, .error errNoneAttribute) :=
  ⟨by decide, rfl, rfl,
   claim_C10_submitCall_bad_session dissect0 dbLinked ctSample badSession [] .null .null
     none linkedRecord (by decide) rfl rfl⟩

/-!
### Preservation of the combined invariant `GoodState`

One lemma per commit shape, then one lemma per operation, then the
induction over `Reach`.
-/

theorem recOK_of_not_linked {r : LinkedTokens} (h : r.linked = false) : RecOK r :=
  ⟨fun _ => h, fun hl => absurd hl (by simp [h]), fun hl => absurd hl (by simp [h])⟩

theorem commitToken_true (db : DB) (o : LinkedTokens) :
    commitToken db true o =
    { db with tokens := db.tokens ++ [o], next_token_id := db.next_token_id + 1 } := rfl

theorem commitToken_false (db : DB) (o : LinkedTokens) :
    commitToken db false o =
    { db with tokens := db.tokens.map (fun t => if t.id == o.id then o else t) } := rfl

theorem mem_commit_new {db : DB} {o r : LinkedTokens}
    (hr : r ∈ (commitToken db true o).tokens) : r ∈ db.tokens ∨ r = o := by
  rw [commitToken_true] at hr
  simpa using List.mem_append.mp hr

theorem mem_commit_update {db : DB} {o r : LinkedTokens}
    (hr : r ∈ (commitToken db false o).tokens) :
    (r = o ∧ ∃ t ∈ db.tokens, t.id = o.id) ∨ (r ∈ db.tokens ∧ r.id ≠ o.id) := by
  rw [commitToken_false] at hr
  obtain ⟨t, ht, hrt⟩ := List.mem_map.mp hr
  by_cases hid : (t.id == o.id) = true
  · rw [if_pos hid] at hrt
    exact Or.inl ⟨hrt.symm, t, ht, eq_of_beq hid⟩
  · rw [if_neg hid] at hrt
    subst hrt
    exact Or.inr ⟨ht, by simpa using hid⟩

theorem commit_update_mem_self {db : DB} {o : LinkedTokens} {t : LinkedTokens}
    (ht : t ∈ db.tokens) (hid : t.id = o.id) : o ∈ (commitToken db false o).tokens := by
  rw [commitToken_false]
  refine List.mem_map.mpr ⟨t, ht, ?_⟩
  rw [if_pos (by simpa using hid)]

theorem commit_update_map_id (db : DB) (o : LinkedTokens) :
    (commitToken db false o).tokens.map LinkedTokens.id = db.tokens.map LinkedTokens.id := by
  rw [commitToken_false]
  simp only [List.map_map]
  refine List.map_congr_left ?_
  intro t _
  dsimp only [Function.comp]
  by_cases hid : (t.id == o.id) = true
  · rw [if_pos hid, eq_of_beq hid]
  · rw [if_neg hid]

theorem codesDistinct_mono {db : DB} {tm tm2 : Nat} (h : tm ≤ tm2)
    (hcd : CodesDistinct db tm) : CodesDistinct db tm2 :=
  fun t ht => hcd t (le_trans h ht)

theorem good_weaken {db : DB} {tm tm2 : Nat} (h : tm ≤ tm2)
    (hg : GoodState db tm) : GoodState db tm2 :=
  ⟨hg.1, hg.2.1, hg.2.2.1, codesDistinct_mono h hg.2.2.2⟩

theorem good_of_tokens_eq {db db2 : DB} {tm : Nat} (h1 : db2.tokens = db.tokens)
    (h2 : db2.next_token_id = db.next_token_id) (hg : GoodState db tm) :
    GoodState db2 tm := by
  obtain ⟨hi, hb, hn, hc⟩ := hg
  refine ⟨?_, ?_, ?_, ?_⟩
  · intro r hr; exact hi r (h1 ▸ hr)
  · intro r hr; rw [h2]; exact hb r (h1 ▸ hr)
  · unfold TokensNodup; rw [h1]; exact hn
  · intro t ht r1 hr1 r2 hr2
    exact hc t ht r1 (h1 ▸ hr1) r2 (h1 ▸ hr2)

theorem expiresAfter_mono {e : Option Nat} {tm t : Nat} (htm : tm ≤ t)
    (h : expiresAfter e t = true) : expiresAfter e tm = true := by
  cases e with
  | none => simp [expiresAfter] at h
  | some x =>
    simp only [expiresAfter, decide_eq_true_eq] at h ⊢
    omega

theorem active_of_active_later {r : LinkedTokens} {tm t : Nat} (htm : tm ≤ t)
    (h : expiresAfter r.code_expires t = true) : expiresAfter r.code_expires tm = true :=
  expiresAfter_mono htm h

theorem not_active_code {db : DB} {now : Nat} {c : String}
    (h : activeCodeExists db now c = false) {r : LinkedTokens} (hr : r ∈ db.tokens)
    (hc : r.code = some c) (ha : expiresAfter r.code_expires now = true) : False := by
  unfold activeCodeExists at h
  rw [List.any_eq_false] at h
  have := h r hr
  simp [hc, ha] at this

theorem good_commit_fresh {db : DB} {tm : Nat} {o : LinkedTokens} (hg : GoodState db tm)
    (ho : RecOK o) (hid : o.id = db.next_token_id)
    (hcode : (∃ c, o.code = some c ∧ activeCodeExists db tm c = false) ∨ o.code = none) :
    GoodState (commitToken db true o) tm := by
  obtain ⟨hi, hb, hn, hc⟩ := hg
  refine ⟨?_, ?_, ?_, ?_⟩
  · intro r hr
    rcases mem_commit_new hr with h | h
    · exact hi r h
    · exact h ▸ ho
  · intro r hr
    rw [commitToken_true]
    rcases mem_commit_new hr with h | h
    · exact Nat.lt_succ_of_lt (hb r h)
    · rw [h, hid]; exact Nat.lt_succ_self _
  · unfold TokensNodup
    rw [commitToken_true]
    dsimp only
    rw [List.map_append, List.nodup_append]
    refine ⟨hn, by simp, ?_⟩
    intro a ha
    obtain ⟨r, hr, hra⟩ := List.mem_map.mp ha
    simp only [List.map_cons, List.map_nil, List.mem_singleton]
    intro heq
    have := hb r hr
    rw [hra, heq, hid] at this
    exact absurd this (by omega)
  · intro t ht r1 hr1 r2 hr2 c hc1 hc2 ha1 ha2
    rcases mem_commit_new hr1 with h1 | h1 <;> rcases mem_commit_new hr2 with h2 | h2
    · exact hc t ht r1 h1 r2 h2 c hc1 hc2 ha1 ha2
    · subst h2
      rcases hcode with ⟨c0, hoc, hfresh⟩ | hoc
      · rw [hoc] at hc2
        cases hc2
        exact (not_active_code hfresh h1 hc1 (active_of_active_later ht ha1)).elim
      · rw [hoc] at hc2; exact absurd hc2 (by simp)
    · subst h1
      rcases hcode with ⟨c0, hoc, hfresh⟩ | hoc
      · rw [hoc] at hc1
        cases hc1
        exact (not_active_code hfresh h2 hc2 (active_of_active_later ht ha2)).elim
      · rw [hoc] at hc1; exact absurd hc1 (by simp)
    · rw [h1, h2]

theorem good_commit_update {db : DB} {tm : Nat} {o u : LinkedTokens} (hg : GoodState db tm)
    (ho : RecOK o) (hu : u ∈ db.tokens) (hid : o.id = u.id)
    (hcode : (∃ c, o.code = some c ∧ activeCodeExists db tm c = false) ∨
             (o.code = u.code ∧ o.code_expires = u.code_expires) ∨ o.code = none) :
    GoodState (commitToken db false o) tm := by
  obtain ⟨hi, hb, hn, hc⟩ := hg
  have hnext : (commitToken db false o).next_token_id = db.next_token_id := by
    rw [commitToken_false]
  refine ⟨?_, ?_, ?_, ?_⟩
  · intro r hr
    rcases mem_commit_update hr with ⟨h, _⟩ | ⟨h, _⟩
    · exact h ▸ ho
    · exact hi r h
  · intro r hr
    rw [hnext]
    rcases mem_commit_update hr with ⟨h, t, htm, htid⟩ | ⟨h, _⟩
    · rw [h, hid]; have := hb u hu; omega
    · exact hb r h
  · unfold TokensNodup
    rw [commit_update_map_id]
    exact hn
  · intro t ht r1 hr1 r2 hr2 c hc1 hc2 ha1 ha2
    have key : ∀ r ∈ db.tokens, r.code = some c →
        expiresAfter r.code_expires t = true → o.code = some c →
        expiresAfter o.code_expires t = true → o.id = r.id := by
      intro r hrm hrc hra hoc hoa
      rcases hcode with ⟨c0, hoc0, hfresh⟩ | ⟨hcc, hce⟩ | hnone
      · rw [hoc0] at hoc
        cases hoc
        exact (not_active_code hfresh hrm hrc (active_of_active_later ht hra)).elim
      · have h2 := hc t ht u hu r hrm c (hcc ▸ hoc) hrc
          (by rw [hce] at hoa; exact hoa) hra
        rw [hid, h2]
      · rw [hnone] at hoc; exact absurd hoc (by simp)
    rcases mem_commit_update hr1 with ⟨h1, _⟩ | ⟨h1, hne1⟩ <;>
      rcases mem_commit_update hr2 with ⟨h2, _⟩ | ⟨h2, hne2⟩
    · rw [h1, h2]
    · subst h1
      exact key r2 h2 hc2 ha2 hc1 ha1
    · subst h2
      exact (key r1 h1 hc1 ha1 hc2 ha2).symm
    · exact hc t ht r1 h1 r2 h2 c hc1 hc2 ha1 ha2

/-!
### Properties of `_generate_code` and state projections of the operations
-/

theorem genCodeAux_ok (db : DB) (now : Nat) (draw : Nat → Fin 62) :
    ∀ (n i : Nat) (c : String), 10 - i = n → genCodeAux db now draw i = .ok c →
    activeCodeExists db now c = false ∧ ∃ j, i ≤ j ∧ j < 10 ∧ c = codeFromDraw draw j := by
  intro n
  induction n with
  | zero =>
    intro i c hn h
    rw [genCodeAux] at h
    rw [dif_neg (by omega)] at h
    exact absurd h (by simp)
  | succ n ih =>
    intro i c hn h
    rw [genCodeAux] at h
    rw [dif_pos (by omega)] at h
    dsimp only at h
    by_cases ha : activeCodeExists db now (codeFromDraw draw i) = true
    · rw [if_pos ha] at h
      obtain ⟨h1, j, hj1, hj2, hj3⟩ := ih (i + 1) c (by omega) h
      exact ⟨h1, j, by omega, hj2, hj3⟩
    · rw [if_neg ha] at h
      cases h
      exact ⟨by simpa using ha, i, le_refl i, by omega, rfl⟩

theorem genCodeAux_error (db : DB) (now : Nat) (draw : Nat → Fin 62) :
    ∀ (n i : Nat) (e : String), 10 - i = n →
    (genCodeAux db now draw i = .error e ↔
     (e = errMaxRetries ∧
      ∀ j, i ≤ j → j < 10 → activeCodeExists db now (codeFromDraw draw j) = true)) := by
  intro n
  induction n with
  | zero =>
    intro i e hn
    rw [genCodeAux]
    rw [dif_neg (by omega)]
    constructor
    · intro h
      cases h
      exact ⟨rfl, fun j h1 h2 => by omega⟩
    · rintro ⟨he, _⟩
      rw [he]
  | succ n ih =>
    intro i e hn
    rw [genCodeAux]
    rw [dif_pos (by omega)]
    dsimp only
    by_cases ha : activeCodeExists db now (codeFromDraw draw i) = true
    · rw [if_pos ha, ih (i + 1) e (by omega)]
      constructor
      · rintro ⟨he, hall⟩
        refine ⟨he, fun j h1 h2 => ?_⟩
        rcases Nat.eq_or_lt_of_le h1 with h | h
        · rw [← h]; exact ha
        · exact hall j h h2
      · rintro ⟨he, hall⟩
        exact ⟨he, fun j h1 h2 => hall j (by omega) h2⟩
    · rw [if_neg ha]
      constructor
      · intro h
        exact absurd h (by simp)
      · rintro ⟨_, hall⟩
        exact absurd (hall i (le_refl i) (by omega)) ha

theorem gis_proj (db : DB) (o : LinkedTokens) (f : String) :
    (generate_init_session db o f).1.tokens = db.tokens ∧
    (generate_init_session db o f).1.next_token_id = db.next_token_id := by
  unfold generate_init_session
  dsimp only
  split <;> exact ⟨rfl, rfl⟩

theorem glm_proj (db : DB) (sess : LinkedSession) (lmi : Option Nat) (p : Bool) :
    (get_linked_messages db sess lmi p).1.tokens = db.tokens ∧
    (get_linked_messages db sess lmi p).1.next_token_id = db.next_token_id := by
  unfold get_linked_messages
  cases lmi with
  | none => exact ⟨rfl, rfl⟩
  | some c =>
    dsimp only
    split <;> exact ⟨rfl, rfl⟩

theorem lm_proj (db : DB) (ct st : String) (lmi : Option Nat) (f1 f2 : String) :
    (link_messages db ct st lmi f1 f2).1.tokens = db.tokens ∧
    (link_messages db ct st lmi f1 f2).1.next_token_id = db.next_token_id := by
  unfold link_messages
  by_cases hct : ct.isEmpty = true
  · rw [if_pos hct]; exact ⟨rfl, rfl⟩
  · rw [if_neg hct]
    cases hf : findByClientToken db ct with
    | none => exact ⟨rfl, rfl⟩
    | some obj =>
      dsimp only
      by_cases hl : (!obj.linked) = true
      · rw [if_pos hl]; exact ⟨rfl, rfl⟩
      · rw [if_neg hl]
        have hp : (if st.isEmpty = true then generate_init_session db obj f1
            else (db, st)).1.tokens = db.tokens ∧
            (if st.isEmpty = true then generate_init_session db obj f1
            else (db, st)).1.next_token_id = db.next_token_id := by
          split
          · exact gis_proj _ _ _
          · exact ⟨rfl, rfl⟩
        cases hfs : findSession (if st.isEmpty = true then generate_init_session db obj f1
            else (db, st)).1 (if st.isEmpty = true then generate_init_session db obj f1
            else (db, st)).2 obj.id with
        | some s =>
          exact ⟨((glm_proj _ s lmi true).1).trans hp.1, ((glm_proj _ s lmi true).2).trans hp.2⟩
        | none =>
          dsimp only
          by_cases hgen : st.isEmpty = true
          · rw [if_pos hgen]; exact hp
          · rw [if_neg hgen]
            have hp2 : (generate_init_session (if st.isEmpty = true then
                generate_init_session db obj f1 else (db, st)).1 obj f2).1.tokens =
                db.tokens ∧
                (generate_init_session (if st.isEmpty = true then
                generate_init_session db obj f1 else (db, st)).1 obj f2).1.next_token_id =
                db.next_token_id :=
              ⟨((gis_proj _ obj f2).1).trans hp.1, ((gis_proj _ obj f2).2).trans hp.2⟩
            cases hfs2 : findSession (generate_init_session (if st.isEmpty = true then
                generate_init_session db obj f1 else (db, st)).1 obj f2).1
                (generate_init_session (if st.isEmpty = true then
                generate_init_session db obj f1 else (db, st)).1 obj f2).2 obj.id with
            | some s =>
              dsimp only
              exact ⟨((glm_proj _ s lmi true).1).trans hp2.1,
                     ((glm_proj _ s lmi true).2).trans hp2.2⟩
            | none => exact hp2

theorem wc_proj (db : DB) (wt : String) (cid : Json) (st : String) (res : Json) :
    (wallet_called db wt cid st res).1.tokens = db.tokens ∧
    (wallet_called db wt cid st res).1.next_token_id = db.next_token_id := by
  unfold wallet_called
  cases db.sessions.find? (fun s => s.session_token == st) with
  | none => exact ⟨rfl, rfl⟩
  | some s =>
    dsimp only
    cases db.tokens.find? (fun t => t.id == s.linked_id) with
    | none => exact ⟨rfl, rfl⟩
    | some obj =>
      dsimp only
      split <;> exact ⟨rfl, rfl⟩

theorem cw_proj (dissect : Json → Json → Json) (db : DB) (ct st : String)
    (accs : List String) (cid call : Json) (ru : Option String) :
    (call_wallet dissect db ct st accs cid call ru).1.tokens = db.tokens ∧
    (call_wallet dissect db ct st accs cid call ru).1.next_token_id = db.next_token_id := by
  unfold call_wallet
  by_cases hct : ct.isEmpty = true
  · rw [if_pos hct]; exact ⟨rfl, rfl⟩
  · rw [if_neg hct]
    cases db.tokens.find? (fun t => t.client_token == ct && t.linked) with
    | none => exact ⟨rfl, rfl⟩
    | some obj =>
      dsimp only
      cases findSession db st obj.id with
      | none => exact ⟨rfl, rfl⟩
      | some s =>
        dsimp only
        split <;> exact ⟨rfl, rfl⟩

theorem wm_proj (db : DB) (wt : String) (accs : List String) (lmi : Option Nat) :
    (wallet_messages db wt accs lmi).1.tokens = db.tokens ∧
    (wallet_messages db wt accs lmi).1.next_token_id = db.next_token_id := by
  unfold wallet_messages
  by_cases hwt : wt.isEmpty = true
  · rw [if_pos hwt]; exact ⟨rfl, rfl⟩
  · rw [if_neg hwt]
    cases accs with
    | nil => exact ⟨rfl, rfl⟩
    | cons a0 rest =>
      dsimp only
      cases lmi with
      | none => exact ⟨rfl, rfl⟩
      | some c => exact ⟨rfl, rfl⟩

/-!
### `GoodState` preservation per operation
-/

theorem good_link_wallet (uap : Json → Json) (db : DB) (tm : Nat) (wt code : String)
    (rpc accs : Json) (hg : GoodState db tm) :
    GoodState (link_wallet uap db tm wt code rpc accs).1 tm := by
  unfold link_wallet
  cases hf : findByCode db code tm with
  | none => exact hg
  | some u =>
    dsimp only
    have hmem : u ∈ db.tokens := List.mem_of_find?_eq_some hf
    have hrec : RecOK { u with
        wallet_token := some wt
        code := none
        linked := true
        current_rpc := rpc
        current_accounts := accs
        linked_at := some tm
        pending_call := none } := by
      refine ⟨?_, ?_, ?_⟩
      · intro h; exact nomatch h
      · intro _; exact ⟨rfl, rfl⟩
      · intro _; rfl
    have hg1 : GoodState (commitToken db false
        { u with
          wallet_token := some wt
          code := none
          linked := true
          current_rpc := rpc
          current_accounts := accs
          linked_at := some tm
          pending_call := none }) tm :=
      good_commit_update hg hrec hmem rfl (Or.inr (Or.inr rfl))
    split
    · exact hg1
    · refine good_of_tokens_eq ?_ ?_ hg1 <;> rw [fanOut_eq]

theorem good_unlink (db : DB) (tm : Nat) (ct : String) (hg : GoodState db tm) :
    GoodState (unlink db ct).1 tm := by
  unfold unlink
  cases hf : findByClientToken db ct with
  | none => exact hg
  | some u =>
    dsimp only
    split
    · exact hg
    · exact good_commit_update hg (recOK_of_not_linked rfl)
        (List.mem_of_find?_eq_some hf) rfl (Or.inr (Or.inl ⟨rfl, rfl⟩))

theorem good_unlink_wallet (db : DB) (tm : Nat) (wt lid : String) (hg : GoodState db tm) :
    GoodState (unlink_wallet db wt lid).1 tm := by
  unfold unlink_wallet
  cases hf : (db.tokens.filter (fun t => t.wallet_token == some wt)).find?
      (fun t => t.linked && _hash_id t.id t.client_token == lid) with
  | none => exact hg
  | some u =>
    dsimp only
    have hmem : u ∈ db.tokens := List.mem_of_mem_filter (List.mem_of_find?_eq_some hf)
    exact good_commit_update hg (recOK_of_not_linked rfl) hmem rfl
      (Or.inr (Or.inl ⟨rfl, rfl⟩))

/-- The common tail of `generate_code_core` after a record `obj2` has been
committed into `db1`: session provisioning and the optional pending-call
commit preserve `GoodState`. -/
theorem good_tail (tm : Nat) (db1 : DB) (obj2 : LinkedTokens) (stk fs : String)
    (pending_call : Option Json) (dissect : Json → Json → Json)
    (hg1 : GoodState db1 tm) (hmem : obj2 ∈ db1.tokens) :
    GoodState
      (let ses := if (!stk.isEmpty && (findSession db1 stk obj2.id).isSome) = true
          then (db1, stk) else generate_init_session db1 obj2 fs
       let db2 := ses.1
       let st := ses.2
       let fin :=
         match pending_call with
         | some pc =>
           if pc.truthy && !obj2.linked then
             let pc1 := (pc.insert kSessionToken (.str st)).insert kMeta
               (_get_meta dissect .null (pc.lookupD kCall))
             let o := { obj2 with pending_call := some pc1 }
             (commitToken db2 false o, o)
           else (db2, obj2)
         | none => (db2, obj2)
       fin.1) tm := by
  dsimp only
  set ses := if (!stk.isEmpty && (findSession db1 stk obj2.id).isSome) = true
      then (db1, stk) else generate_init_session db1 obj2 fs with hses
  have h2 : ses.1.tokens = db1.tokens ∧ ses.1.next_token_id = db1.next_token_id := by
    rw [hses]
    split
    · exact ⟨rfl, rfl⟩
    · exact gis_proj _ _ _
  have hg2 : GoodState ses.1 tm := good_of_tokens_eq h2.1 h2.2 hg1
  have hmem2 : obj2 ∈ ses.1.tokens := h2.1 ▸ hmem
  cases pending_call with
  | none => exact hg2
  | some pc =>
    dsimp only
    by_cases hcond : (pc.truthy && !obj2.linked) = true
    · rw [if_pos hcond]
      have hlnk : obj2.linked = false := by
        rw [Bool.and_eq_true] at hcond
        simpa using hcond.2
      exact good_commit_update hg2 (recOK_of_not_linked hlnk) hmem2 rfl
        (Or.inr (Or.inl ⟨rfl, rfl⟩))
    · rw [if_neg hcond]
      exact hg2

theorem good_generate_code_core (dissect : Json → Json → Json) (db : DB) (now : Nat)
    (stk : String) (ru : Option String) (pc : Option Json) (ua : Option String)
    (fr : Bool) (fs : String) (draw : Nat → Fin 62) (isNew : Bool) (ct : String)
    (obj0 : LinkedTokens) (hg : GoodState db now)
    (hprov : (isNew = true ∧ obj0.id = db.next_token_id ∧ obj0.linked = false) ∨
             (isNew = false ∧ obj0 ∈ db.tokens)) :
    GoodState (generate_code_core dissect db now stk ru pc ua fr fs draw isNew ct obj0).1
      now := by
  unfold generate_code_core
  dsimp only
  set obj1 := if fr = true then { obj0 with linked := false, wallet_token := none } else obj0
    with hobj1
  have hid1 : obj1.id = obj0.id := by rw [hobj1]; split <;> rfl
  have hcode1 : obj1.code = obj0.code := by rw [hobj1]; split <;> rfl
  have hexp1 : obj1.code_expires = obj0.code_expires := by rw [hobj1]; split <;> rfl
  by_cases hl : obj1.linked = true
  · rw [if_pos hl]
    dsimp only
    have heq10 : obj1 = obj0 := by
      rw [hobj1]
      cases hfr : fr with
      | false => simp
      | true =>
        rw [hobj1, hfr] at hl
        simp at hl
    rcases hprov with ⟨_, _, hl0⟩ | ⟨hN, hmem⟩
    · rw [heq10, hl0] at hl
      exact absurd hl (by simp)
    · rw [hN]
      have hg1 : GoodState (commitToken db false obj1) now :=
        good_commit_update hg (by rw [heq10]; exact hg.1 obj0 hmem) hmem
          (by rw [heq10]) (Or.inr (Or.inl ⟨hcode1, hexp1⟩))
      have hmem1 : obj1 ∈ (commitToken db false obj1).tokens :=
        commit_update_mem_self hmem hid1.symm
      exact good_tail now (commitToken db false obj1) obj1 stk fs pc dissect hg1 hmem1
  · rw [if_neg hl]
    set obj1a := (match ua with
      | some u => { obj1 with app_info := Json.obj [(kUserAgent, .str u)] }
      | none => obj1) with hobj1a
    have hid1a : obj1a.id = obj1.id := by rw [hobj1a]; cases ua <;> rfl
    have hlink1a : obj1a.linked = obj1.linked := by rw [hobj1a]; cases ua <;> rfl
    cases hgen : _generate_code db now draw with
    | error e => exact hg
    | ok c =>
      dsimp only
      obtain ⟨hfresh, _⟩ := genCodeAux_ok db now draw 10 0 c rfl hgen
      have hlnk1 : obj1.linked = false := by simpa using hl
      set obj2 : LinkedTokens := { obj1a with
          code := some c
          code_expires := some (now + minutesToSeconds CODE_EXPIRATION_TIME_MINUTES)
          current_return_url := ru } with hobj2
      have hrec2 : RecOK obj2 := recOK_of_not_linked (hlink1a.trans hlnk1)
      rcases hprov with ⟨hN, hid0, _⟩ | ⟨hN, hmem⟩
      · rw [hN]
        have hg1 := good_commit_fresh hg hrec2
          (show obj2.id = db.next_token_id from (hid1a.trans hid1).trans hid0)
          (Or.inl ⟨c, rfl, hfresh⟩)
        have hmem1 : obj2 ∈ (commitToken db true obj2).tokens := by
          rw [commitToken_true]
          simp
        exact good_tail now _ _ stk fs pc dissect hg1 hmem1
      · rw [hN]
        have hg1 := good_commit_update hg hrec2 hmem
          (show obj2.id = obj0.id from hid1a.trans hid1) (Or.inl ⟨c, rfl, hfresh⟩)
        have hmem1 : obj2 ∈ (commitToken db false obj2).tokens :=
          commit_update_mem_self hmem (show obj0.id = obj2.id from (hid1a.trans hid1).symm)
        exact good_tail now _ _ stk fs pc dissect hg1 hmem1

theorem good_generate_code (dissect : Json → Json → Json) (db : DB) (now : Nat)
    (ct st : String) (ru : Option String) (pc : Option Json) (ua : Option String)
    (fr : Bool) (fc fs : String) (draw : Nat → Fin 62) (hg : GoodState db now) :
    GoodState (generate_code dissect db now ct st ru pc ua fr fc fs draw).1 now := by
  unfold generate_code
  dsimp only
  by_cases hct : ct.isEmpty = true
  · rw [if_pos hct]
    exact good_generate_code_core dissect db now st ru pc ua fr fs draw true fc
      (blankRecord db.next_token_id fc) hg (Or.inl ⟨rfl, rfl, rfl⟩)
  · rw [if_neg hct]
    cases hf : findByClientToken db ct with
    | none => exact hg
    | some o =>
      exact good_generate_code_core dissect db now st ru pc ua fr fs draw false ct o hg
        (Or.inr ⟨rfl, List.mem_of_find?_eq_some hf⟩)

/-- The combined invariant holds in every reachable state. -/
theorem good_reach {db : DB} {t : Nat} (h : Reach db t) : GoodState db t := by
  induction h with
  | init =>
    refine ⟨?_, ?_, ?_, ?_⟩
    · intro r hr; simp [emptyDB] at hr
    · intro r hr; simp [emptyDB] at hr
    · simp [TokensNodup, emptyDB]
    · intro t2 _ r1 hr1; simp [emptyDB] at hr1
  | requestCode t2 dissect ct st ru pc ua fr fc fs draw hr hle ih =>
    exact good_generate_code dissect _ t2 ct st ru pc ua fr fc fs draw (good_weaken hle ih)
  | completeLink t2 uap wt code rpc accs hr hle ih =>
    exact good_link_wallet uap _ t2 wt code rpc accs (good_weaken hle ih)
  | clientPoll t2 ct st lmi f1 f2 hr hle ih =>
    exact good_of_tokens_eq (lm_proj _ ct st lmi f1 f2).1 (lm_proj _ ct st lmi f1 f2).2
      (good_weaken hle ih)
  | walletPoll t2 wt accs lmi hr hle ih =>
    exact good_of_tokens_eq (wm_proj _ wt accs lmi).1 (wm_proj _ wt accs lmi).2
      (good_weaken hle ih)
  | submitCall t2 dissect ct st accs cid call ru hr hle ih =>
    exact good_of_tokens_eq (cw_proj dissect _ ct st accs cid call ru).1
      (cw_proj dissect _ ct st accs cid call ru).2 (good_weaken hle ih)
  | deliverResult t2 wt cid st res hr hle ih =>
    exact good_of_tokens_eq (wc_proj _ wt cid st res).1 (wc_proj _ wt cid st res).2
      (good_weaken hle ih)
  | unlinkStep t2 ct hr hle ih => exact good_unlink _ t2 ct (good_weaken hle ih)
  | unlinkWalletStep t2 wt lid hr hle ih =>
    exact good_unlink_wallet _ t2 wt lid (good_weaken hle ih)

/-- C7: in every state reachable by any sequence of the core operations,
every pairing record satisfies the spec invariant: a non-null `code`
implies `linked = false`; `linked = true` implies a non-null `wallet_token`
and `code = null`; and `pending_call` is null whenever `linked = true`. -/
theorem claim_C7_record_invariant (db : DB) (t : Nat) (h : Reach db t) : Inv db :=
  (good_reach h).1

/-- Witness for C7: the state after request-code on the empty database,
reached by one step. -/
theorem claim_C7_witness :
    Inv (generate_code dissect0 emptyDB 0 emptyString emptyString none none none false
      ctSample stSample draw0).1 :=
  claim_C7_record_invariant _ 0
    (Reach.requestCode 0 dissect0 emptyString emptyString none none none false ctSample
      stSample draw0 Reach.init (le_refl 0))

/-!
### C8: code issuance
-/

theorem codeFromDraw_length (draw : Nat → Fin 62) (i : Nat) :
    (codeFromDraw draw i).length = 9 := by
  simp [codeFromDraw, String.length]

theorem codeFromDraw_alphabet (draw : Nat → Fin 62) (i : Nat) :
    ∀ ch ∈ (codeFromDraw draw i).data, ch ∈ CODE_ALPHABET := by
  intro ch hch
  obtain ⟨j, _, hje⟩ := List.mem_map.mp hch
  have hv : (draw (9 * i + j)).val < CODE_ALPHABET.length := (draw (9 * i + j)).isLt
  rw [← hje, List.getD_eq_getElem _ _ hv]
  exact List.getElem_mem _

/-- Session provisioning does not change the pairing table. -/
theorem ses_tokens (db1 : DB) (o : LinkedTokens) (stk fs : String) :
    ((if (!stk.isEmpty && (findSession db1 stk o.id).isSome) = true
      then (db1, stk) else generate_init_session db1 o fs) : DB × String).1.tokens =
    db1.tokens := by
  split
  · rfl
  · exact (gis_proj _ _ _).1

/-- On the issued path (`linked = false` in the result), the committed
record carries the returned code with expiry one hour after `now`. -/
theorem generate_code_core_expiry (dissect : Json → Json → Json) (db : DB) (now : Nat)
    (stk : String) (ru : Option String) (pc : Option Json) (ua : Option String)
    (fr : Bool) (fs : String) (draw : Nat → Fin 62) (isNew : Bool) (ct : String)
    (obj0 : LinkedTokens)
    (hprov : isNew = true ∨ (isNew = false ∧ obj0 ∈ db.tokens)) :
    ∀ g : GenResult,
    (generate_code_core dissect db now stk ru pc ua fr fs draw isNew ct obj0).2 = .ok g →
    g.linked = false →
    ∃ r ∈ (generate_code_core dissect db now stk ru pc ua fr fs draw isNew ct obj0).1.tokens,
      r.code = some g.code ∧
      r.code_expires = some (now + minutesToSeconds CODE_EXPIRATION_TIME_MINUTES) := by
  unfold generate_code_core
  dsimp only
  set obj1 := if fr = true then { obj0 with linked := false, wallet_token := none } else obj0
    with hobj1
  have hid1 : obj1.id = obj0.id := by rw [hobj1]; split <;> rfl
  by_cases hl : obj1.linked = true
  · rw [if_pos hl]
    dsimp only
    intro g hok hglf
    exfalso
    cases hpc : pc with
    | none =>
      rw [hpc] at hok
      dsimp only at hok
      rw [if_pos hl] at hok
      cases hok
      simp at hglf
    | some p =>
      rw [hpc] at hok
      dsimp only at hok
      rw [if_neg (show ¬((p.truthy && !obj1.linked) = true) by simp [hl])] at hok
      rw [if_pos hl] at hok
      cases hok
      simp at hglf
  · rw [if_neg hl]
    set obj1a := (match ua with
      | some u => { obj1 with app_info := Json.obj [(kUserAgent, .str u)] }
      | none => obj1) with hobj1a
    have hid1a : obj1a.id = obj1.id := by rw [hobj1a]; cases ua <;> rfl
    have hlink1a : obj1a.linked = obj1.linked := by rw [hobj1a]; cases ua <;> rfl
    cases hgen : _generate_code db now draw with
    | error e =>
      intro g hok
      exact absurd hok (by simp)
    | ok c =>
      dsimp only
      intro g hok hglf
      have hlnk1 : obj1.linked = false := by simpa using hl
      set obj2 : LinkedTokens := { obj1a with
          code := some c
          code_expires := some (now + minutesToSeconds CODE_EXPIRATION_TIME_MINUTES)
          current_return_url := ru } with hobj2
      have hl2 : obj1a.linked = false := hlink1a.trans hlnk1
      have hmem1 : obj2 ∈ (commitToken db isNew obj2).tokens := by
        rcases hprov with hN | ⟨hN, hmem⟩
        · rw [hN, commitToken_true]
          simp
        · rw [hN]
          exact commit_update_mem_self hmem (show obj0.id = obj2.id from
            (hid1a.trans hid1).symm)
      have hsest : ((if (!stk.isEmpty &&
          (findSession (commitToken db isNew obj2) stk obj2.id).isSome) = true
          then (commitToken db isNew obj2, stk)
          else generate_init_session (commitToken db isNew obj2) obj2 fs) :
            DB × String).1.tokens = (commitToken db isNew obj2).tokens :=
        ses_tokens _ _ _ _
      have hmem2 : obj2 ∈ ((if (!stk.isEmpty &&
          (findSession (commitToken db isNew obj2) stk obj2.id).isSome) = true
          then (commitToken db isNew obj2, stk)
          else generate_init_session (commitToken db isNew obj2) obj2 fs) :
            DB × String).1.tokens := by
        rw [hsest]
        exact hmem1
      cases hpc : pc with
      | none =>
        rw [hpc] at hok
        dsimp only at hok
        rw [if_neg (by simp [hl2])] at hok
        cases hok
        refine ⟨obj2, ?_, rfl, rfl⟩
        dsimp only
        rw [hsest]
        exact hmem1
      | some p =>
        rw [hpc] at hok
        dsimp only at hok
        by_cases hcond : (p.truthy && !obj2.linked) = true
        · rw [if_pos hcond] at hok
          dsimp only at hok
          rw [if_neg (by simp [hl2])] at hok
          cases hok
          dsimp only
          rw [if_pos hcond]
          dsimp only
          exact ⟨_, commit_update_mem_self hmem2 rfl, rfl, rfl⟩
        · rw [if_neg hcond] at hok
          dsimp only at hok
          rw [if_neg (by simp [hl2])] at hok
          cases hok
          dsimp only
          rw [if_neg hcond]
          dsimp only
          exact ⟨obj2, hmem2, rfl, rfl⟩

/-- C8: code issuance.  (i) When `_generate_code` returns a code it is a
9-character string over the alphanumeric alphabet that collides with no
currently-active (unexpired) code; (ii) it raises (with its max-retries
message) precisely when all ten drawn candidates collide with active
codes; (iii) in consequence, in every reachable state no two
simultaneously active codes are equal (equal active codes at any present
or future instant belong to the same record); (iv) every code issued by
`generate_code` is stored with expiry 60 minutes after issuance. -/
theorem claim_C8_code_issuance :
    (∀ (db : DB) (now : Nat) (draw : Nat → Fin 62) (c : String),
      _generate_code db now draw = .ok c →
      c.length = 9 ∧ (∀ ch ∈ c.data, ch ∈ CODE_ALPHABET) ∧
      activeCodeExists db now c = false) ∧
    (∀ (db : DB) (now : Nat) (draw : Nat → Fin 62),
      _generate_code db now draw = .error errMaxRetries ↔
      ∀ j, j < 10 → activeCodeExists db now (codeFromDraw draw j) = true) ∧
    (∀ (db : DB) (t : Nat), Reach db t → CodesDistinct db t) ∧
    (∀ (dissect : Json → Json → Json) (db : DB) (now : Nat) (ct st : String)
       (ru : Option String) (pc : Option Json) (ua : Option String) (fr : Bool)
       (fc fs : String) (draw : Nat → Fin 62) (g : GenResult),
      (generate_code dissect db now ct st ru pc ua fr fc fs draw).2 = .ok g →
      g.linked = false →
      ∃ r ∈ (generate_code dissect db now ct st ru pc ua fr fc fs draw).1.tokens,
        r.code = some g.code ∧
        r.code_expires = some (now + minutesToSeconds CODE_EXPIRATION_TIME_MINUTES)) := by
  refine ⟨?_, ?_, ?_, ?_⟩
  · intro db now draw c hok
    obtain ⟨hfresh, j, _, _, hcj⟩ := genCodeAux_ok db now draw 10 0 c rfl hok
    subst hcj
    exact ⟨codeFromDraw_length draw j, codeFromDraw_alphabet draw j, hfresh⟩
  · intro db now draw
    unfold _generate_code
    rw [genCodeAux_error db now draw 10 0 errMaxRetries rfl]
    constructor
    · rintro ⟨_, h⟩
      exact fun j hj => h j (Nat.zero_le j) hj
    · intro h
      exact ⟨rfl, fun j _ hj => h j hj⟩
  · intro db t h
    exact (good_reach h).2.2.2
  · intro dissect db now ct st ru pc ua fr fc fs draw g hok hglf
    unfold generate_code at hok ⊢
    dsimp only at hok ⊢
    by_cases hct : ct.isEmpty = true
    · rw [if_pos hct] at hok ⊢
      exact generate_code_core_expiry dissect db now st ru pc ua fr fs draw true fc
        (blankRecord db.next_token_id fc) (Or.inl rfl) g hok hglf
    · rw [if_neg hct] at hok ⊢
      cases hf : findByClientToken db ct with
      | none =>
        rw [hf] at hok
        exact absurd hok (by simp)
      | some o =>
        rw [hf] at hok
        exact generate_code_core_expiry dissect db now st ru pc ua fr fs draw false ct o
          (Or.inr ⟨rfl, List.mem_of_find?_eq_some hf⟩) g hok hglf

/-- Witness for C8: the first draw on the empty database succeeds and the
issuance properties hold there; distinct active codes hold initially. -/
theorem claim_C8_witness :
    ((codeFromDraw draw0 0).length = 9 ∧
     (∀ ch ∈ (codeFromDraw draw0 0).data, ch ∈ CODE_ALPHABET) ∧
     activeCodeExists emptyDB 0 (codeFromDraw draw0 0) = false) ∧
    CodesDistinct emptyDB 0 := by
  have hok : _generate_code emptyDB 0 draw0 = .ok (codeFromDraw draw0 0) := by
    unfold _generate_code
    rw [genCodeAux]
    rw [dif_pos (by omega)]
    rw [if_neg (by simp [activeCodeExists, emptyDB])]
  exact ⟨claim_C8_code_issuance.1 emptyDB 0 draw0 (codeFromDraw draw0 0) hok,
         claim_C8_code_issuance.2.2.1 emptyDB 0 Reach.init⟩

/-!
### C9: shape of `_hash_id` and failure of secret-injectivity
-/

theorem sha3_224_bytes_length (msg : List Nat) : (sha3_224_bytes msg).length = 28 := by
  unfold sha3_224_bytes
  simp

theorem sha3_224_hexDigits_length (msg : List Nat) :
    (sha3_224_hexDigits msg).length = 56 := by
  unfold sha3_224_hexDigits
  rw [List.length_flatMap]
  have h : List.map (List.length ∘ (fun b : Nat =>
      ([⟨b / 16 % 16, Nat.mod_lt _ (by omega)⟩, ⟨b % 16, Nat.mod_lt _ (by omega)⟩] :
        List (Fin 16)))) (sha3_224_bytes msg) =
      List.map (fun _ => 2) (sha3_224_bytes msg) :=
    List.map_congr_left (fun b _ => rfl)
  rw [h]
  simp [sha3_224_bytes_length]

theorem hashDigits_length (exposed_id : Nat) (key : String) :
    (hashDigits exposed_id key).length = 16 := by
  unfold hashDigits
  rw [List.length_take, sha3_224_hexDigits_length]
  decide

theorem secretOfNat_length (n : Nat) : (secretOfNat n).length = n := by
  simp [secretOfNat, String.length]

/-- C9 counterexample: the claim asserts that for a fixed internal id any
two distinct secrets hash to distinct outputs; the 16-hex-character
truncation makes the codomain finite, so by the pigeonhole principle two
distinct secrets collide. -/
theorem claim_C9_counterexample :
    ∃ a b : String, a ≠ b ∧ _hash_id 1 a = _hash_id 1 b := by
  obtain ⟨n, m, hnm, heq⟩ := Finite.exists_ne_map_eq_of_infinite (hashDigitFun 1)
  refine ⟨secretOfNat n, secretOfNat m, ?_, ?_⟩
  · intro h
    have hinj : n = m := by
      have h2 := congrArg String.length h
      rwa [secretOfNat_length, secretOfNat_length] at h2
    exact hnm hinj
  · have hdig : hashDigits 1 (secretOfNat n) = hashDigits 1 (secretOfNat m) := by
      apply List.ext_getElem (by rw [hashDigits_length, hashDigits_length])
      intro i h1 h2
      have hi : i < 16 := by rw [hashDigits_length] at h1; exact h1
      have h3 := congrFun heq ⟨i, hi⟩
      unfold hashDigitFun at h3
      rwa [List.getD_eq_getElem _ _ (by rw [hashDigits_length]; exact hi),
           List.getD_eq_getElem _ _ (by rw [hashDigits_length]; exact hi)] at h3
    unfold _hash_id sha3_224_hexdigest
    rw [String.take_eq, String.take_eq]
    have h4 := congrArg (List.map hexChar) hdig
    unfold hashDigits at h4
    rw [List.map_take, List.map_take] at h4
    exact congrArg String.mk h4

/-- C9 amended: `_hash_id` is deterministic (equal ids and secrets give
equal outputs - it is a pure function of its inputs) and always returns a
16-character string of lowercase hex digits; but secret-injectivity
cannot hold (see the counterexample), so distinct secrets may collide. -/
theorem claim_C9_hash_shape (exposed_id : Nat) (key : String) :
    (∀ (id2 : Nat) (key2 : String), exposed_id = id2 → key = key2 →
      _hash_id exposed_id key = _hash_id id2 key2) ∧
    (_hash_id exposed_id key).length = 16 ∧
    ∀ ch ∈ (_hash_id exposed_id key).data, ch ∈ HEX_CHARS := by
  refine ⟨?_, ?_, ?_⟩
  · intro id2 key2 h1 h2
    rw [h1, h2]
  · unfold _hash_id sha3_224_hexdigest
    rw [String.take_eq]
    simp [String.length, sha3_224_hexDigits_length]
  · intro ch hch
    unfold _hash_id sha3_224_hexdigest at hch
    rw [String.take_eq] at hch
    have hch2 : ch ∈ List.map hexChar (sha3_224_hexDigits
        (strBytes (toString exposed_id ++ key))) :=
      List.take_subset _ _ hch
    obtain ⟨d, _, hd⟩ := List.mem_map.mp hch2
    have hv : d.val < HEX_CHARS.length := d.isLt
    rw [← hd]
    unfold hexChar
    rw [List.getD_eq_getElem _ _ hv]
    exact List.getElem_mem _

end OriginBridge







